import Mathlib

/-!
The engine object of puerts: `JSEngine` (unity/native_src/Src/JSEngine.cpp)

A shallow embedding of the engine object of `JSEngine.cpp`: the class registry
(`RegisterClass`, `RegisterFunction`, `RegisterProperty`, `GetClassConstructor`),
the object bridge (`FindOrAddObject`, `NewWrap`, `BindObject`, `UnBindObject`),
the script-function handle table (`CreateJSFunction`, `ReleaseJSFunction`),
`Eval`, and the destructor.

Conventions of the embedding:

* a pointer is a natural number and `0` is `nullptr`; host thunks are pointers;
* `int` is an `Int`; the two conversions the code performs (`int` to `size_t` in
  subscripts and comparisons, `size_t` to `int` in `static_cast<int>`) are explicit;
* undefined behaviour of the C++ (subscript out of range, `memcpy` into `nullptr`)
  is the result `none`;
* what the environment decides (the address `malloc` returns, the address a
  constructor thunk returns, the outcome of compiling and running a script) is an
  argument of the operation;
* calls that leave the engine (`free`, thunks, node/uv/V8 disposal) are appended to
  the field `Effects`, in program order.
-/

namespace puerts

/-- Address of host memory or of a host function; the value 0 is the null pointer. -/
abbrev Pointer := Nat

/-- Process memory as seen by memcpy: one byte per address. -/
abbrev Memory := Pointer → Nat

/-- Conversion of an int to size_t (64 bit), as in the subscript `Templates[ClassID]`
and in the comparison `ClassID >= Templates.size()`. -/
def toSizeT (i : Int) : Nat := (i % 18446744073709551616).toNat

/-- Conversion of a size_t to int (32 bit), as in `static_cast<int>(Templates.size())`. -/
def toInt32 (n : Nat) : Int := ((n : Int) + 2147483648) % 4294967296 - 2147483648

/-- The n bytes of memory that start at p. -/
def readBytes (M : Memory) (p : Pointer) (n : Nat) : List Nat :=
  (List.range n).map (fun i => M (p + i))

/-- The effect of `memcpy(dst, src, n)` on memory. -/
def memcpy (M : Memory) (dst src : Pointer) (n : Nat) : Memory :=
  fun a => if dst ≤ a ∧ a < dst + n then M (src + (a - dst)) else M a

/-- Lookup by key (`find` of a std::map). -/
def mapFind {κ ν : Type} [DecidableEq κ] (k : κ) : List (κ × ν) → Option ν
  | [] => none
  | e :: rest => if e.1 = k then some e.2 else mapFind k rest

/-- Removal by key (`erase` of a std::map). -/
def mapErase {κ ν : Type} [DecidableEq κ] (k : κ) : List (κ × ν) → List (κ × ν)
  | [] => []
  | e :: rest => if e.1 = k then mapErase k rest else e :: mapErase k rest

/-- Assignment through the subscript of a std::map, `m[k] = v`: overwrites the entry
of k when there is one, inserts one otherwise. -/
def mapAssign {κ ν : Type} [DecidableEq κ] (k : κ) (v : ν) : List (κ × ν) → List (κ × ν)
  | [] => [(k, v)]
  | e :: rest => if e.1 = k then (k, v) :: rest else e :: mapAssign k v rest

/-- Number of entries a container holds for a key. -/
def mapCount {κ ν : Type} [DecidableEq κ] (k : κ) : List (κ × ν) → Nat
  | [] => 0
  | e :: rest => if e.1 = k then mapCount k rest + 1 else mapCount k rest

/-- Application of a function to the element at index i of a vector (a write through
`v[i]`); the vector is unchanged when i is out of range. -/
def modifyAt {α : Type} (f : α → α) : Nat → List α → List α
  | _, [] => []
  | 0, x :: rest => f x :: rest
  | i + 1, x :: rest => x :: modifyAt f i rest

/-- Modelled from the spec: the class record `FLifeCycleInfo`, declared in JSEngine.h
(not among the sources); its fields are those the constructor call
`FLifeCycleInfo(ClassId, Constructor, Destructor, Data, Size)` and the field reads of
JSEngine.cpp name. Thunks are function pointers. -/
structure FLifeCycleInfo where
  ClassID : Int
  Constructor : Pointer
  Destructor : Pointer
  Data : Int
  Size : Int
deriving DecidableEq

/-- Modelled from the spec: the callback record `FCallbackInfo`, declared in
JSEngine.h; fields as in the call `FCallbackInfo(IsStatic, Callback, Data)`. -/
structure FCallbackInfo where
  IsStatic : Bool
  Callback : Pointer
  Data : Int
deriving DecidableEq

/-- A member of a function template. A function template made by `ToTemplate` is
identified by the position of its record in `CallbackInfos`. -/
inductive TemplateEntry where
  | Method (Name : String) (Callback : Nat)
  | Accessor (Name : String) (Getter : Nat) (Setter : Option Nat) (ReadOnly DontDelete : Bool)
deriving DecidableEq

/-- A class template (`v8::FunctionTemplate` created in RegisterClass): the record
handed to NewWrap, the internal field count, the template it inherits from (an index
of `Templates`), and the members set on the template and on its prototype template. -/
structure FunctionTemplate where
  Data : FLifeCycleInfo
  InternalFieldCount : Nat
  Parent : Option Nat
  Static : List TemplateEntry
  Prototype : List TemplateEntry
deriving DecidableEq

/-- Modelled from the spec: the value of the tag `OBJECT_MAGIC` is defined in
JSEngine.h; nothing below depends on the number. -/
def OBJECT_MAGIC : Nat := 4195261800

/-- A script object created from a class template: its identity and its three
internal fields (bound address, class record, tag). -/
structure JSObject where
  Id : Nat
  InternalField0 : Pointer
  InternalField1 : Option FLifeCycleInfo
  InternalField2 : Nat
deriving DecidableEq

/-- Modelled from the spec: the function handle `JSFunction`, declared in
JSFunction.h; `new JSFunction(Isolate, Context, Function, Index)` wraps a script
function with an index. Handle is the identity of the allocation, GFunction the
identity of the wrapped script function. Destroying a handle does not touch the
script function. -/
structure JSFunction where
  Handle : Nat
  GFunction : Nat
  Index : Int
deriving DecidableEq

/-- Script values that cross the interface. -/
inductive Value where
  | Undefined
  | Object (o : JSObject)
  | Constructor (Template : Nat) (cid : Int)
  | Number (n : Int)
  | Text (s : String)
deriving DecidableEq

/-- Calls that leave the engine. -/
inductive Effect where
  | DeleteInspector
  | ResetPromiseRejectCallback
  | ResetTemplate (i : Nat)
  | Malloc (size : Nat) (ret : Pointer)
  | Free (p : Pointer)
  | CallConstructor (fn : Pointer) (data : Int)
  | CallDestructor (fn : Pointer) (p : Pointer) (data : Int)
  | ResetObjectHandle (key : Pointer)
  | EmitExit
  | Stop
  | FreeIsolateData
  | FreeEnvironment
  | LoopClose
  | DeleteJSFunction (f : JSFunction)
  | ResetContext
  | DisposeIsolate
  | DeleteAllocator
  | DeleteCallbackInfo (i : Nat)
  | DeleteLifeCycleInfo (i : Nat)
deriving DecidableEq

/-- The engine: the members of class JSEngine that JSEngine.cpp reads and writes,
the script-side state it reaches (the index property of script functions, the
counters that give fresh identities), and the log of effects. -/
structure JSEngine where
  GeneralDestructor : Pointer
  Inspector : Bool
  Templates : List FunctionTemplate
  LifeCycleInfos : List FLifeCycleInfo
  CallbackInfos : List FCallbackInfo
  NameToTemplateID : List (String × Int)
  ObjectMap : List (Pointer × JSObject)
  JSFunctions : List (Option JSFunction)
  FunctionIndexKey : List (Nat × Int)
  LastExceptionInfo : String
  Result : Option Value
  NextObject : Nat
  NextHandle : Nat
  Effects : List Effect
deriving DecidableEq

/-- The engine after its constructor: no inspector, no general destructor, empty
tables. -/
def JSEngine.New : JSEngine :=
  { GeneralDestructor := 0, Inspector := false, Templates := [], LifeCycleInfos := [],
    CallbackInfos := [], NameToTemplateID := [], ObjectMap := [], JSFunctions := [],
    FunctionIndexKey := [], LastExceptionInfo := "", Result := none, NextObject := 0,
    NextHandle := 0, Effects := [] }

/-- Append effects to the log. -/
def JSEngine.emit (E : JSEngine) (es : List Effect) : JSEngine :=
  { E with Effects := E.Effects ++ es }

/-- The effects logged between two states of the engine. -/
def emitted (before after : JSEngine) : List Effect :=
  after.Effects.drop before.Effects.length

/-! ## Function handle table -/

/-- The scan of CreateJSFunction, `for (i = 0; i < size; i++) if (!JSFunctions[i]) ...`:
the first index, counted from i, whose slot is null. -/
def firstVacant : List (Option JSFunction) → Nat → Option Nat
  | [], _ => none
  | none :: _, i => some i
  | some _ :: rest, i => firstVacant rest (i + 1)

/-- The function `JSEngine::CreateJSFunction`. InFunction is the identity of the
script function. The result is the returned pointer (none is nullptr) and the new
state; the outer none is the out-of-range subscript `JSFunctions[index]`. -/
def JSEngine.CreateJSFunction (E : JSEngine) (InFunction : Nat) :
    Option (Option JSFunction × JSEngine) :=
  match mapFind InFunction E.FunctionIndexKey with
  | some index =>
    if h : toSizeT index < E.JSFunctions.length then
      some (E.JSFunctions.get ⟨toSizeT index, h⟩, E)
    else none
  | none =>
    match firstVacant E.JSFunctions 0 with
    | some i =>
      let Function : JSFunction := ⟨E.NextHandle, InFunction, (i : Int)⟩
      some (some Function,
        { E with JSFunctions := E.JSFunctions.set i (some Function),
                 FunctionIndexKey := mapAssign InFunction Function.Index E.FunctionIndexKey,
                 NextHandle := E.NextHandle + 1 })
    | none =>
      let Function : JSFunction := ⟨E.NextHandle, InFunction, toInt32 E.JSFunctions.length⟩
      some (some Function,
        { E with JSFunctions := E.JSFunctions ++ [some Function],
                 FunctionIndexKey := mapAssign InFunction Function.Index E.FunctionIndexKey,
                 NextHandle := E.NextHandle + 1 })

/-- The function `JSEngine::ReleaseJSFunction`: clears the slot at the index of the
handle and deletes the handle; none is the out-of-range subscript. -/
def JSEngine.ReleaseJSFunction (E : JSEngine) (InFunction : JSFunction) : Option JSEngine :=
  if toSizeT InFunction.Index < E.JSFunctions.length then
    some ({ E with JSFunctions := E.JSFunctions.set (toSizeT InFunction.Index) none }.emit
      [Effect.DeleteJSFunction InFunction])
  else none

/-! ## Class registry -/

/-- The function `JSEngine::ToTemplate`: appends a callback record; the function
template it returns is identified by the position of that record. -/
def JSEngine.ToTemplate (E : JSEngine) (IsStatic : Bool) (Callback : Pointer) (Data : Int) :
    Nat × JSEngine :=
  let Pos := E.CallbackInfos.length
  (Pos, { E with CallbackInfos := E.CallbackInfos ++ [⟨IsStatic, Callback, Data⟩] })

/-- The function `JSEngine::RegisterClass`. The result is the class id and the new
state; none is the out-of-range subscript `Templates[BaseClassId]`. -/
def JSEngine.RegisterClass (E : JSEngine) (FullName : String) (BaseClassId : Int)
    (Constructor Destructor : Pointer) (Data : Int) (Size : Int) : Option (Int × JSEngine) :=
  match mapFind FullName E.NameToTemplateID with
  | some id => some (id, E)
  | none =>
    let ClassId := toInt32 E.Templates.length
    let LifeCycleInfo : FLifeCycleInfo :=
      ⟨ClassId, Constructor, if Destructor ≠ 0 then Destructor else E.GeneralDestructor, Data, Size⟩
    let Template : FunctionTemplate := ⟨LifeCycleInfo, 3, none, [], []⟩
    let E1 : JSEngine :=
      { E with LifeCycleInfos := E.LifeCycleInfos ++ [LifeCycleInfo],
               Templates := E.Templates ++ [Template],
               NameToTemplateID := mapAssign FullName ClassId E.NameToTemplateID }
    if BaseClassId ≥ 0 then
      if toSizeT BaseClassId < E1.Templates.length then
        some (ClassId, { E1 with Templates :=
          E.Templates ++ [{ Template with Parent := some (toSizeT BaseClassId) }] })
      else none
    else some (ClassId, E1)

/-- The function `JSEngine::RegisterFunction`. -/
def JSEngine.RegisterFunction (E : JSEngine) (ClassID : Int) (Name : String) (IsStatic : Bool)
    (Callback : Pointer) (Data : Int) : Bool × JSEngine :=
  if toSizeT ClassID ≥ E.Templates.length then (false, E)
  else
    let T := E.ToTemplate IsStatic Callback Data
    let entry := TemplateEntry.Method Name T.1
    if IsStatic then
      let Templates := modifyAt (fun t => { t with Static := t.Static ++ [entry] })
        (toSizeT ClassID) T.2.Templates
      (true, { T.2 with Templates := Templates })
    else
      let Templates := modifyAt (fun t => { t with Prototype := t.Prototype ++ [entry] })
        (toSizeT ClassID) T.2.Templates
      (true, { T.2 with Templates := Templates })

/-- The function `JSEngine::RegisterProperty`. Setter is a function pointer, null for
a read-only property. The two calls of ToTemplate are arguments of one call, which C++
may evaluate in either order; here the getter template is made first. -/
def JSEngine.RegisterProperty (E : JSEngine) (ClassID : Int) (Name : String) (IsStatic : Bool)
    (Getter : Pointer) (GetterData : Int) (Setter : Pointer) (SetterData : Int)
    (DontDelete : Bool) : Bool × JSEngine :=
  if toSizeT ClassID ≥ E.Templates.length then (false, E)
  else
    let ReadOnly : Bool := decide (Setter = 0)
    let G := E.ToTemplate IsStatic Getter GetterData
    let S : Option Nat × JSEngine :=
      if Setter = 0 then (none, G.2)
      else (some (G.2.ToTemplate IsStatic Setter SetterData).1,
            (G.2.ToTemplate IsStatic Setter SetterData).2)
    let entry := TemplateEntry.Accessor Name G.1 S.1 ReadOnly DontDelete
    if IsStatic then
      let Templates := modifyAt (fun t => { t with Static := t.Static ++ [entry] })
        (toSizeT ClassID) S.2.Templates
      (true, { S.2 with Templates := Templates })
    else
      let Templates := modifyAt (fun t => { t with Prototype := t.Prototype ++ [entry] })
        (toSizeT ClassID) S.2.Templates
      (true, { S.2 with Templates := Templates })

/-- The function `JSEngine::GetClassConstructor`: the undefined value for an id
outside the table, otherwise the constructor function of the template tagged with
the class id. -/
def JSEngine.GetClassConstructor (E : JSEngine) (ClassID : Int) : Value :=
  if toSizeT ClassID ≥ E.Templates.length then Value.Undefined
  else Value.Constructor (toSizeT ClassID) ClassID

/-! ## Object bridge -/

/-- The function `JSEngine::BindObject`. Val is the address `malloc` returns when the
payload size is positive. The result is the new state, the new memory and the script
object with its internal fields set; none is `memcpy` into a null buffer. -/
def JSEngine.BindObject (E : JSEngine) (M : Memory) (LifeCycleInfo : FLifeCycleInfo)
    (Ptr : Pointer) (JSObject : JSObject) (Val : Pointer) :
    Option (JSEngine × Memory × puerts.JSObject) :=
  if LifeCycleInfo.Size > 0 then
    let Bound : puerts.JSObject :=
      { JSObject with InternalField0 := Val, InternalField1 := some LifeCycleInfo,
                      InternalField2 := OBJECT_MAGIC }
    let E1 : JSEngine :=
      { E with ObjectMap := mapAssign Val Bound E.ObjectMap }.emit
        [Effect.Malloc LifeCycleInfo.Size.toNat Val]
    if Ptr ≠ 0 then
      if Val = 0 then none
      else some (E1, memcpy M Val Ptr LifeCycleInfo.Size.toNat, Bound)
    else some (E1, M, Bound)
  else
    let Bound : puerts.JSObject :=
      { JSObject with InternalField0 := Ptr, InternalField1 := some LifeCycleInfo,
                      InternalField2 := OBJECT_MAGIC }
    some ({ E with ObjectMap := mapAssign Ptr Bound E.ObjectMap }, M, Bound)

/-- The function `JSEngine::UnBindObject`. -/
def JSEngine.UnBindObject (E : JSEngine) (LifeCycleInfo : FLifeCycleInfo) (Ptr : Pointer) : JSEngine :=
  let E1 : JSEngine := { E with ObjectMap := mapErase Ptr E.ObjectMap }
  if LifeCycleInfo.Size > 0 then E1.emit [Effect.Free Ptr]
  else if LifeCycleInfo.Destructor ≠ 0 then
    E1.emit [Effect.CallDestructor LifeCycleInfo.Destructor Ptr LifeCycleInfo.Data]
  else E1

/-- The weak callback `OnGarbageCollected`: Parameter is the class record given to
SetWeak, InternalField0 the first internal field of the collected object. -/
def OnGarbageCollected (E : JSEngine) (Parameter : FLifeCycleInfo) (InternalField0 : Pointer) :
    JSEngine :=
  E.UnBindObject Parameter InternalField0

/-- The callback `NewWrap` of a class template. LifeCycleInfo is the record attached
to the template, Arg0 the address wrapped by the first argument when that is an
external value, Self the new object, Made the address the constructor thunk returns
when it is called, Val the address `malloc` returns. A call that is not a construct
call throws and binds nothing. -/
def NewWrap (E : JSEngine) (M : Memory) (IsConstructCall : Bool) (LifeCycleInfo : FLifeCycleInfo)
    (Arg0 : Option Pointer) (Self : JSObject) (Made Val : Pointer) :
    Option (JSEngine × Memory × Option JSObject) :=
  if IsConstructCall then
    match Arg0 with
    | some p =>
      (E.BindObject M LifeCycleInfo p Self Val).map (fun r => (r.1, r.2.1, some r.2.2))
    | none =>
      if LifeCycleInfo.Constructor ≠ 0 then
        ((E.emit [Effect.CallConstructor LifeCycleInfo.Constructor LifeCycleInfo.Data]).BindObject
          M LifeCycleInfo Made Self Val).map (fun r => (r.1, r.2.1, some r.2.2))
      else
        (E.BindObject M LifeCycleInfo 0 Self Val).map (fun r => (r.1, r.2.1, some r.2.2))
  else some (E, M, none)

/-- The function `JSEngine::FindOrAddObject`. Val is the address `malloc` returns if
the call allocates. none is the out-of-range subscript `Templates[ClassID]` (or a
failure inside the construct call). -/
def JSEngine.FindOrAddObject (E : JSEngine) (M : Memory) (ClassID : Int) (Ptr : Pointer) (Val : Pointer) :
    Option (Value × JSEngine × Memory) :=
  if Ptr = 0 then some (Value.Undefined, E, M)
  else
    match mapFind Ptr E.ObjectMap with
    | none =>
      if h : toSizeT ClassID < E.Templates.length then
        let Template := E.Templates.get ⟨toSizeT ClassID, h⟩
        let Self : JSObject := ⟨E.NextObject, 0, none, 0⟩
        match NewWrap { E with NextObject := E.NextObject + 1 } M true Template.Data (some Ptr)
            Self 0 Val with
        | some (E1, M1, some o) => some (Value.Object o, E1, M1)
        | _ => none
      else none
    | some o => some (Value.Object o, E, M)

/-! ## Eval -/

/-- What V8 reports for a source text: an empty compile result with the text of the
caught exception, or a compiled script whose run leaves the try-catch with or
without a caught exception and returns a value or an empty result. -/
inductive Compiled where
  | Empty (Caught : String)
  | Script (Caught : Option String) (MaybeValue : Option Value)
deriving DecidableEq

/-- The function `JSEngine::Eval`, on what V8 reports for the source. The text that
`FV8Utils::ExceptionToString` (V8Utils.h) makes of the caught exception is part of the
report. -/
def JSEngine.Eval (E : JSEngine) (CompiledScript : Compiled) : Bool × JSEngine :=
  match CompiledScript with
  | Compiled.Empty exc => (false, { E with LastExceptionInfo := exc })
  | Compiled.Script (some exc) _ => (false, { E with LastExceptionInfo := exc })
  | Compiled.Script none (some v) => (true, { E with Result := some v })
  | Compiled.Script none none => (true, E)

/-- The three outcomes of a source text: it does not compile, its execution throws,
or it produces a value. -/
inductive ScriptOutcome where
  | CompileFailure (exc : String)
  | Thrown (exc : String)
  | Produced (v : Value)
deriving DecidableEq

/-- What V8 reports for each outcome. -/
def ScriptOutcome.report : ScriptOutcome → Compiled
  | ScriptOutcome.CompileFailure exc => Compiled.Empty exc
  | ScriptOutcome.Thrown exc => Compiled.Script (some exc) none
  | ScriptOutcome.Produced v => Compiled.Script none (some v)

/-! ## Destructor -/

/-- The body of the loop over ObjectMap in the destructor, for one entry: frees the
first internal field when the class record of the object has a positive size, then
resets the handle. Every value of the map is a script object, so `IsObject` holds;
`FV8Utils::GetPoninter(Object, i)`, defined in V8Utils.h, is read as the pointer in
internal field i (field 0 without i). -/
def releaseAtTeardown (entry : Pointer × JSObject) : List Effect :=
  match entry.2.InternalField1 with
  | some LifeCycleInfo =>
    if LifeCycleInfo.Size > 0 then
      [Effect.Free entry.2.InternalField0, Effect.ResetObjectHandle entry.1]
    else [Effect.ResetObjectHandle entry.1]
  | none => [Effect.ResetObjectHandle entry.1]

/-- The loop `delete *Iter` over JSFunctions: deleting a null pointer does nothing. -/
def deleteFunctions : List (Option JSFunction) → List Effect
  | [] => []
  | none :: rest => deleteFunctions rest
  | some f :: rest => Effect.DeleteJSFunction f :: deleteFunctions rest

/-- The effects of the destructor `JSEngine::~JSEngine`, in program order. -/
def JSEngine.destructorEffects (E : JSEngine) : List Effect :=
  (if E.Inspector then [Effect.DeleteInspector] else [])
  ++ [Effect.ResetPromiseRejectCallback]
  ++ (List.range E.Templates.length).map Effect.ResetTemplate
  ++ (E.ObjectMap.map releaseAtTeardown).flatten
  ++ [Effect.EmitExit, Effect.Stop, Effect.FreeIsolateData, Effect.FreeEnvironment,
      Effect.LoopClose]
  ++ deleteFunctions E.JSFunctions
  ++ [Effect.ResetContext, Effect.DisposeIsolate, Effect.DeleteAllocator]
  ++ (List.range E.CallbackInfos.length).map Effect.DeleteCallbackInfo
  ++ (List.range E.LifeCycleInfos.length).map Effect.DeleteLifeCycleInfo

/-- The destructor `JSEngine::~JSEngine`. -/
def JSEngine.Destructor (E : JSEngine) : JSEngine :=
  { E with Inspector := false }.emit E.destructorEffects

/-! ## Vocabulary of the claims about releases and disposal order -/

/-- An effect that releases a bridged object: the buffer is freed or the destructor
thunk is called. -/
def Effect.isRelease : Effect → Bool
  | Effect.Free _ => true
  | Effect.CallDestructor _ _ _ => true
  | _ => false

/-- The step of the disposal order of the specification (section 4.5) that an effect
carries out: 1 the debug attachment, 2 the script-function handles, 3 the bridged
objects, 4 the event loop and the environment, 5 the execution context and the
isolate, 6 the callback records and the class records. The effects the order does not
name have no step. -/
def Effect.disposalStep : Effect → Option Nat
  | Effect.DeleteInspector => some 1
  | Effect.DeleteJSFunction _ => some 2
  | Effect.Free _ => some 3
  | Effect.CallDestructor _ _ _ => some 3
  | Effect.ResetObjectHandle _ => some 3
  | Effect.EmitExit => some 4
  | Effect.Stop => some 4
  | Effect.FreeIsolateData => some 4
  | Effect.FreeEnvironment => some 4
  | Effect.LoopClose => some 4
  | Effect.ResetContext => some 5
  | Effect.DisposeIsolate => some 5
  | Effect.DeleteAllocator => some 5
  | Effect.DeleteCallbackInfo _ => some 6
  | Effect.DeleteLifeCycleInfo _ => some 6
  | Effect.ResetPromiseRejectCallback => none
  | Effect.ResetTemplate _ => none
  | Effect.Malloc _ _ => none
  | Effect.CallConstructor _ _ => none

/-- The place of each step of the specification in the order the destructor follows:
steps 1, 3, 4, 2, 5, 6. -/
def destructorPlace : Nat → Nat
  | 1 => 1
  | 3 => 2
  | 4 => 3
  | 2 => 4
  | 5 => 5
  | 6 => 6
  | _ => 0

/-! ## Sequences of registrations -/

/-- The arguments of one call of RegisterClass. -/
structure ClassRegistration where
  FullName : String
  BaseClassId : Int
  Constructor : Pointer
  Destructor : Pointer
  Data : Int
  Size : Int
deriving DecidableEq

/-- A sequence of calls of RegisterClass, from first to last; none when one of them
has undefined behaviour. -/
def JSEngine.RegisterClasses (E : JSEngine) : List ClassRegistration → Option JSEngine
  | [] => some E
  | c :: rest =>
    match E.RegisterClass c.FullName c.BaseClassId c.Constructor c.Destructor c.Data c.Size with
    | none => none
    | some r => r.2.RegisterClasses rest

/-- Every class that has a base has a base registered strictly before it: the
template a template inherits from stands at a smaller index of the table. -/
def JSEngine.BasesRegisteredBefore (E : JSEngine) : Prop :=
  ∀ (i : Nat) (T : FunctionTemplate) (b : Nat),
    E.Templates[i]? = some T → T.Parent = some b → b < i

/-- Every call of the sequence that registers a new name passes either no base
(a negative id) or the id of a class registered before the call. -/
def JSEngine.BasesKnown (E : JSEngine) : List ClassRegistration → Prop
  | [] => True
  | c :: rest =>
    (mapFind c.FullName E.NameToTemplateID = none →
      c.BaseClassId < 0 ∨ c.BaseClassId < (E.Templates.length : Int)) ∧
    ∀ r, E.RegisterClass c.FullName c.BaseClassId c.Constructor c.Destructor c.Data c.Size
      = some r → r.2.BasesKnown rest

/-! ## Concrete states used by the evaluations below -/

/-- A memory whose bytes are not zero. -/
def sampleMemory : Memory := fun a => a % 7 + 1

/-- The engine after `RegisterClass("Vec2", -1, nullptr, nullptr, 0, 8)`: one class
with a payload of 8 bytes. -/
def payloadEngine : JSEngine :=
  { JSEngine.New with
    Templates := [⟨⟨0, 0, 0, 0, 8⟩, 3, none, [], []⟩],
    LifeCycleInfos := [⟨0, 0, 0, 0, 8⟩],
    NameToTemplateID := [("Vec2", 0)] }

/-- The engine after `RegisterClass("Obj", -1, 11, 22, 5, 0)`: one class without
payload, with constructor thunk 11, destructor thunk 22 and data 5. -/
def hostEngine : JSEngine :=
  { JSEngine.New with
    Templates := [⟨⟨0, 11, 22, 5, 0⟩, 3, none, [], []⟩],
    LifeCycleInfos := [⟨0, 11, 22, 5, 0⟩],
    NameToTemplateID := [("Obj", 0)] }

/-- The script object that `FindOrAddObject(0, 100)` creates in hostEngine. -/
def hostObject : JSObject := ⟨0, 100, some ⟨0, 11, 22, 5, 0⟩, OBJECT_MAGIC⟩

/-- The state of hostEngine after `FindOrAddObject(0, 100)`: one bridged object. -/
def hostEngineBound : JSEngine :=
  { hostEngine with ObjectMap := [(100, hostObject)], NextObject := 1 }

/-- The handle that `CreateJSFunction` makes first in a new engine, for script
function 7. -/
def firstHandle : JSFunction := ⟨0, 7, 0⟩

/-- The state of a new engine after `CreateJSFunction` on script function 7. -/
def functionEngine : JSEngine :=
  { JSEngine.New with JSFunctions := [some firstHandle], FunctionIndexKey := [(7, 0)],
                      NextHandle := 1 }

/-- The state of functionEngine after `ReleaseJSFunction(firstHandle)`: the slot is
null, script function 7 still carries index 0. -/
def releasedEngine : JSEngine :=
  { functionEngine with JSFunctions := [none],
                        Effects := [Effect.DeleteJSFunction firstHandle] }

/-- The handle that `CreateJSFunction` makes for script function 8 in releasedEngine:
it takes the vacated slot 0. -/
def secondHandle : JSFunction := ⟨1, 8, 0⟩

/-- The state of releasedEngine after `CreateJSFunction` on script function 8. -/
def reusedEngine : JSEngine :=
  { releasedEngine with JSFunctions := [some secondHandle],
                        FunctionIndexKey := [(7, 0), (8, 0)], NextHandle := 2 }

/-- The script object that the first `FindOrAddObject(0, 100)` creates in
payloadEngine when malloc returns 200. -/
def payloadObject1 : JSObject := ⟨0, 200, some ⟨0, 0, 0, 0, 8⟩, OBJECT_MAGIC⟩

/-- The script object that the second `FindOrAddObject(0, 100)` creates in
payloadEngine when malloc returns 300. -/
def payloadObject2 : JSObject := ⟨1, 300, some ⟨0, 0, 0, 0, 8⟩, OBJECT_MAGIC⟩

/-- The state of hostEngineBound after `CreateJSFunction` on script function 7: one
bridged object and one script-function handle. -/
def bridgedFunctionEngine : JSEngine :=
  { hostEngineBound with JSFunctions := [some firstHandle], FunctionIndexKey := [(7, 0)],
                         NextHandle := 1 }

/-- The state of a new engine after `RegisterClass("A", 0, nullptr, nullptr, 0, 0)`:
class 0 inherits from template 0, itself. -/
def selfBaseEngine : JSEngine :=
  { JSEngine.New with
    Templates := [⟨⟨0, 0, 0, 0, 0⟩, 3, some 0, [], []⟩],
    LifeCycleInfos := [⟨0, 0, 0, 0, 0⟩],
    NameToTemplateID := [("A", 0)] }

/-- The state of payloadEngine after `RegisterClass("Vec3", 0, nullptr, nullptr, 0, 12)`:
class 1, with a payload of 12 bytes, inherits from class 0. -/
def derivedEngine : JSEngine :=
  { JSEngine.New with
    Templates := [⟨⟨0, 0, 0, 0, 8⟩, 3, none, [], []⟩, ⟨⟨1, 0, 0, 0, 12⟩, 3, some 0, [], []⟩],
    LifeCycleInfos := [⟨0, 0, 0, 0, 8⟩, ⟨1, 0, 0, 0, 12⟩],
    NameToTemplateID := [("Vec2", 0), ("Vec3", 1)] }

/-! ## Sequences of registrations: returned ids and distinct names -/

/-- A sequence of calls of RegisterClass, from first to last, with the ids the calls
return; none when one of them has undefined behaviour. -/
def JSEngine.RegisterClassesIds (E : JSEngine) :
    List ClassRegistration → Option (List Int × JSEngine)
  | [] => some ([], E)
  | c :: rest =>
    match E.RegisterClass c.FullName c.BaseClassId c.Constructor c.Destructor c.Data c.Size with
    | none => none
    | some r =>
      match r.2.RegisterClassesIds rest with
      | none => none
      | some s => some (r.1 :: s.1, s.2)

/-- The distinct names of a sequence of registrations, in the order in which they are
first registered, after the names in seen. -/
def registeredNames (seen : List String) : List ClassRegistration → List String
  | [] => seen
  | c :: rest =>
    if c.FullName ∈ seen then registeredNames seen rest
    else registeredNames (seen ++ [c.FullName]) rest

/-- Every index cached on a script function is an index of the handle table. -/
def JSEngine.CachedIndicesInRange (E : JSEngine) : Prop :=
  ∀ (f : Nat) (index : Int),
    mapFind f E.FunctionIndexKey = some index → toSizeT index < E.JSFunctions.length

/-- The registry holds exactly the names of the list, each under the id that is its
position in the list, and one template and one class record per name. -/
def JSEngine.NamesDense (E : JSEngine) (names : List String) : Prop :=
  E.Templates.length = names.length ∧ E.LifeCycleInfos.length = names.length ∧ names.Nodup ∧
  ∀ (name : String) (id : Int),
    mapFind name E.NameToTemplateID = some id ↔ ∃ i : Nat, names[i]? = some name ∧ id = (i : Int)

/-- Every call of the sequence that registers a new name passes a base id for which
the subscript `Templates[BaseClassId]` is defined: a negative id (no base is looked
up) or an index of the table that already holds the new template. -/
def JSEngine.BasesInTable (E : JSEngine) : List ClassRegistration → Prop
  | [] => True
  | c :: rest =>
    (mapFind c.FullName E.NameToTemplateID = none →
      c.BaseClassId < 0 ∨ toSizeT c.BaseClassId ≤ E.Templates.length) ∧
    ∀ r, E.RegisterClass c.FullName c.BaseClassId c.Constructor c.Destructor c.Data c.Size
      = some r → r.2.BasesInTable rest

/-! ## Containers -/

theorem mapFind_mapAssign_self {κ ν : Type} [DecidableEq κ] (k : κ) (v : ν) (m : List (κ × ν)) :
    mapFind k (mapAssign k v m) = some v := by
  induction m with
  | nil => simp [mapAssign, mapFind]
  | cons e rest ih =>
    by_cases h : e.1 = k
    · simp [mapAssign, mapFind, h]
    · simp [mapAssign, mapFind, h, ih]

theorem mapFind_mapAssign_ne {κ ν : Type} [DecidableEq κ] (k q : κ) (v : ν) (m : List (κ × ν))
    (hq : q ≠ k) : mapFind q (mapAssign k v m) = mapFind q m := by
  induction m with
  | nil => simp [mapAssign, mapFind, Ne.symm hq]
  | cons e rest ih =>
    by_cases h : e.1 = k
    · have h2 : ¬ e.1 = q := fun h3 => hq (h3.symm.trans h)
      simp [mapAssign, mapFind, h, h2, Ne.symm hq]
    · by_cases h2 : e.1 = q
      · simp only [mapAssign, if_neg h, mapFind, if_pos h2]
      · simp only [mapAssign, h, if_false, mapFind, h2, ih]

theorem mem_keys_of_mapFind_some {κ ν : Type} [DecidableEq κ] (k : κ) (v : ν) (m : List (κ × ν))
    (h : mapFind k m = some v) : k ∈ m.map Prod.fst := by
  induction m with
  | nil => simp [mapFind] at h
  | cons e rest ih =>
    by_cases h2 : e.1 = k
    · simp [h2]
    · simp only [mapFind, h2, if_false] at h
      simp only [List.map_cons, List.mem_cons]
      exact Or.inr (ih h)

theorem mapFind_none_of_not_mem_keys {κ ν : Type} [DecidableEq κ] (k : κ) (m : List (κ × ν))
    (h : k ∉ m.map Prod.fst) : mapFind k m = none := by
  cases h2 : mapFind k m with
  | none => rfl
  | some v => exact absurd (mem_keys_of_mapFind_some k v m h2) h

theorem mapCount_eq_zero_of_mapFind_none {κ ν : Type} [DecidableEq κ] (k : κ) (m : List (κ × ν))
    (h : mapFind k m = none) : mapCount k m = 0 := by
  induction m with
  | nil => rfl
  | cons e rest ih =>
    by_cases h2 : e.1 = k
    · simp [mapFind, h2] at h
    · simp only [mapFind, h2, if_false] at h
      simp only [mapCount, h2, if_false, ih h]

theorem mapCount_mapAssign_of_mapFind_none {κ ν : Type} [DecidableEq κ] (k : κ) (v : ν)
    (m : List (κ × ν)) (h : mapFind k m = none) : mapCount k (mapAssign k v m) = 1 := by
  induction m with
  | nil => simp [mapCount, mapAssign]
  | cons e rest ih =>
    by_cases h2 : e.1 = k
    · simp [mapFind, h2] at h
    · simp only [mapFind, h2, if_false] at h
      simp only [mapAssign, mapCount, h2, if_false, ih h]

theorem mapCount_eq_one_of_mapFind_some {κ ν : Type} [DecidableEq κ] (k : κ) (v : ν)
    (m : List (κ × ν)) (h : mapFind k m = some v) (hm : (m.map Prod.fst).Nodup) :
    mapCount k m = 1 := by
  induction m with
  | nil => simp [mapFind] at h
  | cons e rest ih =>
    simp only [List.map_cons, List.nodup_cons] at hm
    by_cases h2 : e.1 = k
    · have h3 : mapFind k rest = none :=
        mapFind_none_of_not_mem_keys k rest (h2 ▸ hm.1)
      simp only [mapCount, h2, if_true, mapCount_eq_zero_of_mapFind_none k rest h3]
    · simp only [mapFind, h2, if_false] at h
      simp only [mapCount, h2, if_false, ih h hm.2]

theorem mapFind_mapErase_self {κ ν : Type} [DecidableEq κ] (k : κ) (m : List (κ × ν)) :
    mapFind k (mapErase k m) = none := by
  induction m with
  | nil => rfl
  | cons e rest ih =>
    by_cases h : e.1 = k
    · simp only [mapErase, h, if_true, ih]
    · simp only [mapErase, h, if_false, mapFind, ih]

theorem mapFind_mapErase_ne {κ ν : Type} [DecidableEq κ] (k q : κ) (m : List (κ × ν))
    (hq : q ≠ k) : mapFind q (mapErase k m) = mapFind q m := by
  induction m with
  | nil => rfl
  | cons e rest ih =>
    by_cases h : e.1 = k
    · have h2 : ¬ e.1 = q := fun h3 => hq (h3.symm.trans h)
      simp only [mapErase, h, if_true, mapFind, h2, if_false, ih]
      rw [if_neg (fun h3 => hq h3.symm)]
    · by_cases h2 : e.1 = q
      · simp only [mapErase, if_neg h, mapFind, if_pos h2]
      · simp only [mapErase, h, if_false, mapFind, h2, ih]

theorem mapCount_mapErase_self {κ ν : Type} [DecidableEq κ] (k : κ) (m : List (κ × ν)) :
    mapCount k (mapErase k m) = 0 :=
  mapCount_eq_zero_of_mapFind_none k _ (mapFind_mapErase_self k m)

/-! ## Object bridge: identity -/

/-- C1 (as amended): for a registered class id whose record has no payload (size 0,
or not positive) and a non-null address, two successive calls of FindOrAddObject
return the same script object; the second call changes nothing (no new object, no
new map entry), and after the first call the identity map holds exactly one entry
for the address. -/
theorem FindOrAddObject_identity_host_owned (E : JSEngine) (M : Memory) (ClassID : Int)
    (Ptr Val1 Val2 : Pointer) (T : FunctionTemplate)
    (hT : E.Templates[toSizeT ClassID]? = some T) (hSize : T.Data.Size ≤ 0) (hPtr : Ptr ≠ 0)
    (hMap : (E.ObjectMap.map Prod.fst).Nodup) :
    ∃ o E1, E.FindOrAddObject M ClassID Ptr Val1 = some (Value.Object o, E1, M) ∧
      E1.FindOrAddObject M ClassID Ptr Val2 = some (Value.Object o, E1, M) ∧
      mapFind Ptr E1.ObjectMap = some o ∧ mapCount Ptr E1.ObjectMap = 1 := by
  obtain ⟨hlt, hget⟩ := List.getElem?_eq_some.1 hT
  have hS : ¬ T.Data.Size > 0 := not_lt.2 hSize
  cases hfind : mapFind Ptr E.ObjectMap with
  | some o =>
    refine ⟨o, E, ?_, ?_, hfind, mapCount_eq_one_of_mapFind_some Ptr o _ hfind hMap⟩ <;>
      simp [JSEngine.FindOrAddObject, hPtr, hfind]
  | none =>
    refine ⟨⟨E.NextObject, Ptr, some T.Data, OBJECT_MAGIC⟩,
      { E with NextObject := E.NextObject + 1,
               ObjectMap := mapAssign Ptr ⟨E.NextObject, Ptr, some T.Data, OBJECT_MAGIC⟩
                 E.ObjectMap }, ?_, ?_, ?_, ?_⟩
    · simp [JSEngine.FindOrAddObject, hPtr, hfind, hlt, NewWrap, JSEngine.BindObject, hget, hS]
    · simp [JSEngine.FindOrAddObject, hPtr, mapFind_mapAssign_self]
    · exact mapFind_mapAssign_self _ _ _
    · exact mapCount_mapAssign_of_mapFind_none _ _ _ hfind

/-- Witness of C1 (as amended): class 0 of hostEngine has no payload; the two calls
on address 100 return the same object. -/
theorem FindOrAddObject_identity_host_owned_witness :
    ∃ o E1, hostEngine.FindOrAddObject sampleMemory 0 100 200
        = some (Value.Object o, E1, sampleMemory) ∧
      E1.FindOrAddObject sampleMemory 0 100 300 = some (Value.Object o, E1, sampleMemory) ∧
      mapFind 100 E1.ObjectMap = some o ∧ mapCount 100 E1.ObjectMap = 1 :=
  FindOrAddObject_identity_host_owned hostEngine sampleMemory 0 100 200 300
    ⟨⟨0, 11, 22, 5, 0⟩, 3, none, [], []⟩ (by decide) (by decide) (by decide) (by decide)

/-- C1 (counterexample): class 0 of payloadEngine has a payload of 8 bytes. The first
FindOrAddObject on address 100 (malloc returns 200) creates object 0 and files it
under the buffer 200, so the map holds no entry for 100; the second call on address
100 (malloc returns 300) creates another object, object 1, and a second entry. -/
theorem FindOrAddObject_payload_owned_not_identity :
    (payloadEngine.FindOrAddObject sampleMemory 0 100 200).map
        (fun r => (r.1, r.2.1.ObjectMap, mapCount 100 r.2.1.ObjectMap))
      = some (Value.Object payloadObject1, [(200, payloadObject1)], 0) ∧
    ((payloadEngine.FindOrAddObject sampleMemory 0 100 200).bind
        (fun r => r.2.1.FindOrAddObject r.2.2 0 100 300)).map (fun r => (r.1, r.2.1.ObjectMap))
      = some (Value.Object payloadObject2, [(200, payloadObject1), (300, payloadObject2)]) ∧
    payloadObject1.Id ≠ payloadObject2.Id := by
  refine ⟨by decide, by decide, by decide⟩

/-! ## Class registry: idempotence -/

/-- RegisterClass on a name the registry holds returns the stored id and changes
nothing. -/
theorem RegisterClass_of_registered (E : JSEngine) (FullName : String) (id : Int)
    (h : mapFind FullName E.NameToTemplateID = some id) (BaseClassId : Int)
    (Constructor Destructor : Pointer) (Data Size : Int) :
    E.RegisterClass FullName BaseClassId Constructor Destructor Data Size = some (id, E) := by
  simp [JSEngine.RegisterClass, h]

/-- After a call of RegisterClass that returns, the registry maps the name to the
returned id. -/
theorem RegisterClass_registers (E E1 : JSEngine) (FullName : String) (id : Int)
    (BaseClassId : Int) (Constructor Destructor : Pointer) (Data Size : Int)
    (h : E.RegisterClass FullName BaseClassId Constructor Destructor Data Size = some (id, E1)) :
    mapFind FullName E1.NameToTemplateID = some id := by
  unfold JSEngine.RegisterClass at h
  cases hfind : mapFind FullName E.NameToTemplateID with
  | some id0 =>
    simp only [hfind, Option.some.injEq, Prod.mk.injEq] at h
    rw [← h.1, ← h.2]
    exact hfind
  | none =>
    simp only [hfind] at h
    split_ifs at h <;>
      (simp only [Option.some.injEq, Prod.mk.injEq] at h
       rw [← h.1, ← h.2]
       exact mapFind_mapAssign_self _ _ _)

/-- C2: RegisterClass is idempotent on the name. After a call of RegisterClass with a
name has returned id and left the registry in state E1, a further call with that name,
with any base id, constructor thunk, destructor thunk, data and payload size, returns
the same id and leaves the whole engine state E1 unchanged (no class record added,
the same name-to-id map, the same records). -/
theorem RegisterClass_idempotent (E E1 : JSEngine) (FullName : String) (id : Int)
    (BaseClassId : Int) (Constructor Destructor : Pointer) (Data Size : Int)
    (h : E.RegisterClass FullName BaseClassId Constructor Destructor Data Size = some (id, E1))
    (BaseClassId2 : Int) (Constructor2 Destructor2 : Pointer) (Data2 Size2 : Int) :
    E1.RegisterClass FullName BaseClassId2 Constructor2 Destructor2 Data2 Size2
      = some (id, E1) :=
  RegisterClass_of_registered E1 FullName id
    (RegisterClass_registers E E1 FullName id BaseClassId Constructor Destructor Data Size h)
    BaseClassId2 Constructor2 Destructor2 Data2 Size2

/-- Witness of C2: Vec2 registered in a new engine, then registered again with other
arguments. -/
theorem RegisterClass_idempotent_witness :
    JSEngine.New.RegisterClass "Vec2" (-1) 0 0 0 8 = some (0, payloadEngine) ∧
    payloadEngine.RegisterClass "Vec2" 0 11 22 5 16 = some (0, payloadEngine) :=
  ⟨by decide, RegisterClass_idempotent JSEngine.New payloadEngine "Vec2" 0 (-1) 0 0 0 8
    (by decide) 0 11 22 5 16⟩

/-! ## Function handle table: release -/

/-- C3 (evaluation at the failing input): in a new engine CreateJSFunction on script
function 7 returns firstHandle at index 0 and ReleaseJSFunction clears slot 0, but
function 7 keeps its cached index 0. A further CreateJSFunction on function 7 then
returns the content of slot 0: the null pointer; and after CreateJSFunction on
function 8 has taken slot 0, it returns the handle that wraps function 8. -/
theorem CreateJSFunction_after_release :
    JSEngine.New.CreateJSFunction 7 = some (some firstHandle, functionEngine) ∧
    functionEngine.ReleaseJSFunction firstHandle = some releasedEngine ∧
    releasedEngine.CreateJSFunction 7 = some (none, releasedEngine) ∧
    releasedEngine.CreateJSFunction 8 = some (some secondHandle, reusedEngine) ∧
    reusedEngine.CreateJSFunction 7 = some (some secondHandle, reusedEngine) ∧
    secondHandle.GFunction ≠ 7 := by
  refine ⟨by decide, by decide, by decide, by decide, by decide, by decide⟩

/-! ## Finalization and teardown -/

theorem emitted_emit (E E1 : JSEngine) (es : List Effect) (h : E1.Effects = E.Effects) :
    emitted E (E1.emit es) = es := by
  simp [emitted, JSEngine.emit, h]

theorem emitted_Destructor (E : JSEngine) : emitted E E.Destructor = E.destructorEffects := by
  simp [emitted, JSEngine.Destructor, JSEngine.emit]

theorem emitted_UnBindObject (E : JSEngine) (L : FLifeCycleInfo) (Ptr : Pointer) :
    emitted E (E.UnBindObject L Ptr) =
      if L.Size > 0 then [Effect.Free Ptr]
      else if L.Destructor ≠ 0 then [Effect.CallDestructor L.Destructor Ptr L.Data]
      else [] := by
  unfold JSEngine.UnBindObject
  split_ifs <;> simp [emitted, JSEngine.emit]

/-- C6: finalization. OnGarbageCollected is UnBindObject on the class record and the
first internal field. After UnBindObject(L, p) the identity map has no entry for p and
the entry of every other address is as before; the effects are exactly: one free of p
(and no thunk call) when the payload size of L is positive; otherwise one call of the
destructor thunk of L with (p, L.Data) (and no free) when L has a destructor thunk;
otherwise nothing. -/
theorem UnBindObject_finalizes (E : JSEngine) (L : FLifeCycleInfo) (Ptr : Pointer) :
    OnGarbageCollected E L Ptr = E.UnBindObject L Ptr ∧
    mapCount Ptr (E.UnBindObject L Ptr).ObjectMap = 0 ∧
    (∀ q, mapFind q (E.UnBindObject L Ptr).ObjectMap
      = if q = Ptr then none else mapFind q E.ObjectMap) ∧
    (E.UnBindObject L Ptr).Effects = E.Effects ++
      (if L.Size > 0 then [Effect.Free Ptr]
       else if L.Destructor ≠ 0 then [Effect.CallDestructor L.Destructor Ptr L.Data]
       else []) := by
  have hmap : (E.UnBindObject L Ptr).ObjectMap = mapErase Ptr E.ObjectMap := by
    unfold JSEngine.UnBindObject
    split_ifs <;> rfl
  refine ⟨rfl, ?_, ?_, ?_⟩
  · rw [hmap]
    exact mapCount_mapErase_self _ _
  · intro q
    rw [hmap]
    by_cases hq : q = Ptr
    · rw [if_pos hq, hq]
      exact mapFind_mapErase_self _ _
    · rw [if_neg hq]
      exact mapFind_mapErase_ne _ _ _ hq
  · unfold JSEngine.UnBindObject
    split_ifs <;> simp [JSEngine.emit]

theorem filter_isRelease_deleteFunctions (fs : List (Option JSFunction)) :
    (deleteFunctions fs).filter Effect.isRelease = [] := by
  induction fs with
  | nil => rfl
  | cons f rest ih =>
    cases f with
    | none => simpa [deleteFunctions] using ih
    | some f => simpa [deleteFunctions, Effect.isRelease] using ih

theorem filter_isRelease_teardown (E : JSEngine) (m : List (Pointer × JSObject)) :
    ((m.map releaseAtTeardown).flatten).filter Effect.isRelease =
      (m.map (fun entry =>
        match entry.2.InternalField1 with
        | some L => if L.Size > 0 then emitted E (E.UnBindObject L entry.2.InternalField0) else []
        | none => [])).flatten := by
  induction m with
  | nil => rfl
  | cons e rest ih =>
    simp only [List.map_cons, List.flatten_cons, List.filter_append, ih]
    congr 1
    cases h : e.2.InternalField1 with
    | none => simp [releaseAtTeardown, h, Effect.isRelease]
    | some L =>
      by_cases hS : L.Size > 0
      · simp [releaseAtTeardown, h, hS, Effect.isRelease, emitted_UnBindObject]
      · simp [releaseAtTeardown, h, hS, Effect.isRelease]

theorem filter_isRelease_destructorEffects (E : JSEngine) :
    E.destructorEffects.filter Effect.isRelease =
      ((E.ObjectMap.map releaseAtTeardown).flatten).filter Effect.isRelease := by
  unfold JSEngine.destructorEffects
  have h1 : ((List.range E.Templates.length).map Effect.ResetTemplate).filter Effect.isRelease
      = [] := by
    simp [List.filter_eq_nil_iff, Effect.isRelease]
  have h2 : ((List.range E.CallbackInfos.length).map Effect.DeleteCallbackInfo).filter
      Effect.isRelease = [] := by
    simp [List.filter_eq_nil_iff, Effect.isRelease]
  have h3 : ((List.range E.LifeCycleInfos.length).map Effect.DeleteLifeCycleInfo).filter
      Effect.isRelease = [] := by
    simp [List.filter_eq_nil_iff, Effect.isRelease]
  have h4 : (if E.Inspector = true then [Effect.DeleteInspector] else []).filter
      Effect.isRelease = [] := by
    split_ifs <;> simp [Effect.isRelease]
  simp only [List.filter_append, h1, h2, h3, h4, filter_isRelease_deleteFunctions]
  simp [Effect.isRelease]

/-- C4 (as amended): at teardown the releases the destructor performs are, entry by
entry of the identity map and in the order of the map: for an entry whose class record
has a positive payload size, the release UnBindObject performs on it (one free of the
buffer in the first internal field); for every other entry, nothing. No destructor
thunk is called, and with no entry left no release is performed. -/
theorem Destructor_releases (E : JSEngine) :
    (emitted E E.Destructor).filter Effect.isRelease =
      (E.ObjectMap.map (fun entry =>
        match entry.2.InternalField1 with
        | some L => if L.Size > 0 then emitted E (E.UnBindObject L entry.2.InternalField0) else []
        | none => [])).flatten ∧
    (∀ fn p data, Effect.CallDestructor fn p data ∉ emitted E E.Destructor) ∧
    (E.ObjectMap = [] → (emitted E E.Destructor).filter Effect.isRelease = []) := by
  have key := (filter_isRelease_destructorEffects E).trans (filter_isRelease_teardown E E.ObjectMap)
  refine ⟨by rw [emitted_Destructor]; exact key, ?_, ?_⟩
  · intro fn p data hmem
    have hrel : Effect.CallDestructor fn p data ∈
        (emitted E E.Destructor).filter Effect.isRelease :=
      List.mem_filter.2 ⟨hmem, rfl⟩
    rw [emitted_Destructor, filter_isRelease_destructorEffects] at hrel
    obtain ⟨hmem2, -⟩ := List.mem_filter.1 hrel
    obtain ⟨l, hl, hin⟩ := List.mem_flatten.1 hmem2
    obtain ⟨entry, -, rfl⟩ := List.mem_map.1 hl
    unfold releaseAtTeardown at hin
    split at hin
    · split_ifs at hin <;> simp at hin
    · simp at hin
  · intro hnil
    rw [emitted_Destructor, key, hnil]
    rfl

/-- Witness of C4 (as amended): hostEngine has no bridged object; its teardown
performs no release. -/
theorem Destructor_releases_witness :
    (emitted hostEngine hostEngine.Destructor).filter Effect.isRelease = [] :=
  (Destructor_releases hostEngine).2.2 (by decide)

/-- C4 (counterexample): hostEngineBound holds one bridged object at address 100 of a
class without payload whose destructor thunk is 22 (the state FindOrAddObject(0, 100)
produces in hostEngine). UnBindObject on that entry calls
the thunk on (100, 5); the destructor of the engine performs no release for it. -/
theorem Destructor_skips_destructor_thunk :
    (hostEngine.FindOrAddObject sampleMemory 0 100 0).map (fun r => (r.1, r.2.1))
      = some (Value.Object hostObject, hostEngineBound) ∧
    emitted hostEngineBound (hostEngineBound.UnBindObject ⟨0, 11, 22, 5, 0⟩ 100)
      = [Effect.CallDestructor 22 100 5] ∧
    (emitted hostEngineBound hostEngineBound.Destructor).filter Effect.isRelease = [] ∧
    hostEngineBound.ObjectMap = [(100, hostObject)] ∧
    hostObject.InternalField1 = some ⟨0, 11, 22, 5, 0⟩ := by
  refine ⟨by decide, by decide, by decide, by decide, by decide⟩

/-! ## Disposal order -/

/-- A list of steps in the order of the destructor whose places are all at most c. -/
theorem placed_append (l1 l2 : List Nat) (c c2 : Nat)
    (h1 : l1.Pairwise (fun a b => destructorPlace a ≤ destructorPlace b))
    (hb : ∀ a ∈ l1, destructorPlace a ≤ c) (h2 : ∀ b ∈ l2, destructorPlace b = c2)
    (hc : c ≤ c2) :
    (l1 ++ l2).Pairwise (fun a b => destructorPlace a ≤ destructorPlace b) ∧
      ∀ a ∈ l1 ++ l2, destructorPlace a ≤ c2 := by
  refine ⟨List.pairwise_append.2 ⟨h1, ?_, ?_⟩, ?_⟩
  · exact List.pairwise_of_forall_mem_list (fun a ha b hb2 => by rw [h2 a ha, h2 b hb2])
  · intro a ha b hb2
    rw [h2 b hb2]
    exact le_trans (hb a ha) hc
  · intro a ha
    rcases List.mem_append.1 ha with h | h
    · exact le_trans (hb a h) hc
    · exact le_of_eq (h2 a h)

theorem disposalStep_teardown (m : List (Pointer × JSObject)) :
    ∀ s ∈ ((m.map releaseAtTeardown).flatten).filterMap Effect.disposalStep, s = 3 := by
  intro s hs
  obtain ⟨e, he, hes⟩ := List.mem_filterMap.1 hs
  obtain ⟨l, hl, hin⟩ := List.mem_flatten.1 he
  obtain ⟨entry, -, rfl⟩ := List.mem_map.1 hl
  unfold releaseAtTeardown at hin
  split at hin
  · split_ifs at hin
    · simp only [List.mem_cons, List.mem_singleton, List.not_mem_nil, or_false] at hin
      rcases hin with rfl | rfl <;> simp [Effect.disposalStep] at hes <;> omega
    · simp only [List.mem_singleton] at hin
      subst hin
      simp [Effect.disposalStep] at hes
      omega
  · simp only [List.mem_singleton] at hin
    subst hin
    simp [Effect.disposalStep] at hes
    omega

theorem disposalStep_deleteFunctions (fs : List (Option JSFunction)) :
    ∀ s ∈ (deleteFunctions fs).filterMap Effect.disposalStep, s = 2 := by
  induction fs with
  | nil => simp [deleteFunctions]
  | cons f rest ih =>
    cases f with
    | none => simpa [deleteFunctions] using ih
    | some f =>
      intro s hs
      simp only [deleteFunctions, List.filterMap_cons, Effect.disposalStep, List.mem_cons] at hs
      rcases hs with rfl | hs
      · rfl
      · exact ih s hs

/-- C5 (as amended): the effects of the destructor follow the order 1, 3, 4, 2, 5, 6
of the steps of the specification: no effect of a step occurs before an effect of a
step that comes earlier in that order. So the debug attachment is destroyed first (it
is the first effect when there is an inspector), every bridged object is released
before the event loop and the environment are stopped, these are stopped before the
script-function handles are released, the handles are released before the execution
context and the isolate, and the callback records and class records are freed last. -/
theorem Destructor_order (E : JSEngine) :
    ((emitted E E.Destructor).filterMap Effect.disposalStep).Pairwise
      (fun a b => destructorPlace a ≤ destructorPlace b) ∧
    (emitted E E.Destructor).head? =
      some (if E.Inspector = true then Effect.DeleteInspector
            else Effect.ResetPromiseRejectCallback) := by
  rw [emitted_Destructor]
  constructor
  · unfold JSEngine.destructorEffects
    simp only [List.filterMap_append]
    have hA : ∀ s ∈ (if E.Inspector = true then [Effect.DeleteInspector] else []).filterMap
        Effect.disposalStep, destructorPlace s = 1 := by
      intro s hs
      split_ifs at hs
      · simp [Effect.disposalStep] at hs
        subst hs
        rfl
      · simp at hs
    have hB : ∀ s ∈ [Effect.ResetPromiseRejectCallback].filterMap Effect.disposalStep,
        destructorPlace s = 1 := by
      simp [Effect.disposalStep]
    have hC : ∀ s ∈ ((List.range E.Templates.length).map Effect.ResetTemplate).filterMap
        Effect.disposalStep, destructorPlace s = 1 := by
      intro s hs
      obtain ⟨e, he, hes⟩ := List.mem_filterMap.1 hs
      obtain ⟨i, -, rfl⟩ := List.mem_map.1 he
      simp [Effect.disposalStep] at hes
    have hD : ∀ s ∈ ((E.ObjectMap.map releaseAtTeardown).flatten).filterMap
        Effect.disposalStep, destructorPlace s = 2 := by
      intro s hs
      rw [disposalStep_teardown _ s hs]
      rfl
    have hF : ∀ s ∈ [Effect.EmitExit, Effect.Stop, Effect.FreeIsolateData,
        Effect.FreeEnvironment, Effect.LoopClose].filterMap Effect.disposalStep,
        destructorPlace s = 3 := by
      intro s hs
      simp [Effect.disposalStep] at hs
      subst hs
      rfl
    have hG : ∀ s ∈ (deleteFunctions E.JSFunctions).filterMap Effect.disposalStep,
        destructorPlace s = 4 := by
      intro s hs
      rw [disposalStep_deleteFunctions _ s hs]
      rfl
    have hH : ∀ s ∈ [Effect.ResetContext, Effect.DisposeIsolate,
        Effect.DeleteAllocator].filterMap Effect.disposalStep, destructorPlace s = 5 := by
      intro s hs
      simp [Effect.disposalStep] at hs
      subst hs
      rfl
    have hI : ∀ s ∈ ((List.range E.CallbackInfos.length).map
        Effect.DeleteCallbackInfo).filterMap Effect.disposalStep, destructorPlace s = 6 := by
      intro s hs
      obtain ⟨e, he, hes⟩ := List.mem_filterMap.1 hs
      obtain ⟨i, -, rfl⟩ := List.mem_map.1 he
      simp [Effect.disposalStep] at hes
      subst hes
      rfl
    have hJ : ∀ s ∈ ((List.range E.LifeCycleInfos.length).map
        Effect.DeleteLifeCycleInfo).filterMap Effect.disposalStep, destructorPlace s = 6 := by
      intro s hs
      obtain ⟨e, he, hes⟩ := List.mem_filterMap.1 hs
      obtain ⟨i, -, rfl⟩ := List.mem_map.1 he
      simp [Effect.disposalStep] at hes
      subst hes
      rfl
    have s0 := placed_append [] _ 1 1 List.Pairwise.nil (by simp) hA (le_refl _)
    rw [List.nil_append] at s0
    have s1 := placed_append _ _ 1 1 s0.1 s0.2 hB (le_refl _)
    have s2 := placed_append _ _ 1 1 s1.1 s1.2 hC (le_refl _)
    have s3 := placed_append _ _ 1 2 s2.1 s2.2 hD (by decide)
    have s4 := placed_append _ _ 2 3 s3.1 s3.2 hF (by decide)
    have s5 := placed_append _ _ 3 4 s4.1 s4.2 hG (by decide)
    have s6 := placed_append _ _ 4 5 s5.1 s5.2 hH (by decide)
    have s7 := placed_append _ _ 5 6 s6.1 s6.2 hI (by decide)
    have s8 := placed_append _ _ 6 6 s7.1 s7.2 hJ (le_refl _)
    exact s8.1
  · unfold JSEngine.destructorEffects
    split_ifs <;> simp

/-- C5 (counterexample): bridgedFunctionEngine holds one bridged object and one
script-function handle (the state CreateJSFunction produces in hostEngineBound). Its
destructor resets the bridged object (step 3) and stops the event loop and frees the
environment (step 4) before it deletes the handle (step 2): the steps of its effects
are 3, 4, 4, 4, 4, 4, 2, 5, 5, 5, 6, which is not in the order of the specification. -/
theorem Destructor_deletes_handles_late :
    hostEngineBound.CreateJSFunction 7 = some (some firstHandle, bridgedFunctionEngine) ∧
    (emitted bridgedFunctionEngine bridgedFunctionEngine.Destructor).filterMap
        Effect.disposalStep = [3, 4, 4, 4, 4, 4, 2, 5, 5, 5, 6] ∧
    ¬ ((emitted bridgedFunctionEngine bridgedFunctionEngine.Destructor).filterMap
        Effect.disposalStep).Pairwise (fun a b => a ≤ b) := by
  refine ⟨by decide, by decide, by decide⟩

/-! ## Unknown class id -/

theorem toSizeT_ge_iff (n : Nat) (ClassID : Int)
    (hInt : -2147483648 ≤ ClassID ∧ ClassID < 2147483648) (hLen : n < 9223372036854775808) :
    toSizeT ClassID ≥ n ↔ (ClassID < 0 ∨ (n : Int) ≤ ClassID) := by
  unfold toSizeT
  omega

/-- C7: an unknown class id is a non-fatal failure. For a class id that is an int and
a table of n templates (n below 2^63): when the id is not in [0, n), negative or at
least n, RegisterFunction and RegisterProperty return false and leave the engine as it
is (no callback record appended, no template changed) and GetClassConstructor returns
the undefined value; when the id is in [0, n), RegisterFunction and RegisterProperty
return true. -/
theorem unknown_class_id (E : JSEngine) (ClassID : Int)
    (hInt : -2147483648 ≤ ClassID ∧ ClassID < 2147483648)
    (hLen : E.Templates.length < 9223372036854775808) :
    ((ClassID < 0 ∨ (E.Templates.length : Int) ≤ ClassID) →
      (∀ Name IsStatic Callback Data,
        E.RegisterFunction ClassID Name IsStatic Callback Data = (false, E)) ∧
      (∀ Name IsStatic Getter GetterData Setter SetterData DontDelete,
        E.RegisterProperty ClassID Name IsStatic Getter GetterData Setter SetterData DontDelete
          = (false, E)) ∧
      E.GetClassConstructor ClassID = Value.Undefined) ∧
    ((0 ≤ ClassID ∧ ClassID < (E.Templates.length : Int)) →
      (∀ Name IsStatic Callback Data,
        (E.RegisterFunction ClassID Name IsStatic Callback Data).1 = true) ∧
      (∀ Name IsStatic Getter GetterData Setter SetterData DontDelete,
        (E.RegisterProperty ClassID Name IsStatic Getter GetterData Setter SetterData
          DontDelete).1 = true)) := by
  have key := toSizeT_ge_iff E.Templates.length ClassID hInt hLen
  constructor
  · intro h
    have hge : toSizeT ClassID ≥ E.Templates.length := key.2 h
    refine ⟨?_, ?_, ?_⟩
    · intro Name IsStatic Callback Data
      simp [JSEngine.RegisterFunction, hge]
    · intro Name IsStatic Getter GetterData Setter SetterData DontDelete
      simp [JSEngine.RegisterProperty, hge]
    · simp [JSEngine.GetClassConstructor, hge]
  · intro h
    have hlt : ¬ toSizeT ClassID ≥ E.Templates.length := by
      rw [key]
      omega
    constructor
    · intro Name IsStatic Callback Data
      unfold JSEngine.RegisterFunction
      rw [if_neg hlt]
      cases IsStatic <;> simp
    · intro Name IsStatic Getter GetterData Setter SetterData DontDelete
      unfold JSEngine.RegisterProperty
      rw [if_neg hlt]
      cases IsStatic <;> simp

/-- Witness of C7: hostEngine has one class; id -1 and id 1 are refused, id 0 is
accepted. -/
theorem unknown_class_id_witness :
    hostEngine.RegisterFunction (-1) "f" true 5 6 = (false, hostEngine) ∧
    hostEngine.RegisterProperty (-1) "p" false 5 6 0 0 true = (false, hostEngine) ∧
    hostEngine.GetClassConstructor (-1) = Value.Undefined ∧
    (hostEngine.RegisterFunction 0 "f" true 5 6).1 = true ∧
    (hostEngine.RegisterProperty 0 "p" false 5 6 0 0 true).1 = true :=
  have h := unknown_class_id hostEngine (-1) (by decide) (by decide)
  have h0 := unknown_class_id hostEngine 0 (by decide) (by decide)
  ⟨(h.1 (by decide)).1 "f" true 5 6, (h.1 (by decide)).2.1 "p" false 5 6 0 0 true,
    (h.1 (by decide)).2.2, (h0.2 (by decide)).1 "f" true 5 6,
    (h0.2 (by decide)).2 "p" false 5 6 0 0 true⟩

/-! ## Eval -/

/-- C8: Eval on the three outcomes of a source text. It returns false exactly when the
text does not compile or its execution throws; in that case the last-exception text is
the text of the caught exception and the stored result is as before. When the text
produces a value Eval returns true, stores the value as the result and leaves the
last-exception text as before. -/
theorem Eval_outcome (E : JSEngine) (o : ScriptOutcome) :
    ((E.Eval o.report).1 = false ↔
      ∃ exc, o = ScriptOutcome.CompileFailure exc ∨ o = ScriptOutcome.Thrown exc) ∧
    (∀ exc, o = ScriptOutcome.CompileFailure exc ∨ o = ScriptOutcome.Thrown exc →
      (E.Eval o.report).1 = false ∧ (E.Eval o.report).2.LastExceptionInfo = exc ∧
      (E.Eval o.report).2.Result = E.Result) ∧
    (∀ v, o = ScriptOutcome.Produced v →
      (E.Eval o.report).1 = true ∧ (E.Eval o.report).2.Result = some v ∧
      (E.Eval o.report).2.LastExceptionInfo = E.LastExceptionInfo) := by
  cases o with
  | CompileFailure exc =>
    refine ⟨⟨fun _ => ⟨exc, Or.inl rfl⟩, fun _ => rfl⟩, ?_, ?_⟩
    · intro e he
      rcases he with he | he
      · cases he
        exact ⟨rfl, rfl, rfl⟩
      · cases he
    · intro v hv
      cases hv
  | Thrown exc =>
    refine ⟨⟨fun _ => ⟨exc, Or.inr rfl⟩, fun _ => rfl⟩, ?_, ?_⟩
    · intro e he
      rcases he with he | he
      · cases he
      · cases he
        exact ⟨rfl, rfl, rfl⟩
    · intro v hv
      cases hv
  | Produced v =>
    refine ⟨⟨fun h => ?_, fun h => ?_⟩, ?_, ?_⟩
    · simp [JSEngine.Eval, ScriptOutcome.report] at h
    · obtain ⟨e, he | he⟩ := h <;> cases he
    · intro e he
      rcases he with he | he <;> cases he
    · intro w hw
      cases hw
      exact ⟨rfl, rfl, rfl⟩

/-- Witness of C8: in hostEngine a text that does not compile, and a text that
produces the number 2. -/
theorem Eval_outcome_witness :
    ((hostEngine.Eval (ScriptOutcome.CompileFailure "SyntaxError").report).1 = false ∧
      (hostEngine.Eval (ScriptOutcome.CompileFailure "SyntaxError").report).2.LastExceptionInfo
        = "SyntaxError" ∧
      (hostEngine.Eval (ScriptOutcome.CompileFailure "SyntaxError").report).2.Result
        = hostEngine.Result) ∧
    ((hostEngine.Eval (ScriptOutcome.Produced (Value.Number 2)).report).1 = true ∧
      (hostEngine.Eval (ScriptOutcome.Produced (Value.Number 2)).report).2.Result
        = some (Value.Number 2) ∧
      (hostEngine.Eval (ScriptOutcome.Produced (Value.Number 2)).report).2.LastExceptionInfo
        = hostEngine.LastExceptionInfo) :=
  ⟨(Eval_outcome hostEngine (ScriptOutcome.CompileFailure "SyntaxError")).2.1 "SyntaxError"
      (Or.inl rfl),
    (Eval_outcome hostEngine (ScriptOutcome.Produced (Value.Number 2))).2.2 (Value.Number 2) rfl⟩

/-! ## Base classes -/

theorem toSizeT_le (b : Int) (h : 0 ≤ b) : (toSizeT b : Int) ≤ b := by
  unfold toSizeT
  omega

theorem basesRegisteredBefore_push (Ts : List FunctionTemplate) (T : FunctionTemplate)
    (hTs : ∀ (i : Nat) (U : FunctionTemplate) (b : Nat), Ts[i]? = some U → U.Parent = some b → b < i)
    (hT : ∀ b, T.Parent = some b → b < Ts.length) :
    ∀ (i : Nat) (U : FunctionTemplate) (b : Nat),
      (Ts ++ [T])[i]? = some U → U.Parent = some b → b < i := by
  intro i U b hU hb
  by_cases hi : i < Ts.length
  · rw [List.getElem?_append_left hi] at hU
    exact hTs i U b hU hb
  · have hi2 : Ts.length ≤ i := not_lt.1 hi
    rw [List.getElem?_append_right hi2] at hU
    cases hk : i - Ts.length with
    | zero =>
      rw [hk] at hU
      simp only [List.getElem?_cons_zero, Option.some.injEq] at hU
      subst hU
      exact lt_of_lt_of_le (hT b hb) hi2
    | succ k =>
      rw [hk] at hU
      simp at hU

/-- One call of RegisterClass that passes a known base (or none) returns and keeps
every base registered before its class. -/
theorem RegisterClass_keeps_bases (E : JSEngine) (c : ClassRegistration)
    (hE : E.BasesRegisteredBefore)
    (hc : mapFind c.FullName E.NameToTemplateID = none →
      c.BaseClassId < 0 ∨ c.BaseClassId < (E.Templates.length : Int)) :
    ∃ r, E.RegisterClass c.FullName c.BaseClassId c.Constructor c.Destructor c.Data c.Size
        = some r ∧ r.2.BasesRegisteredBefore := by
  unfold JSEngine.RegisterClass
  cases hfind : mapFind c.FullName E.NameToTemplateID with
  | some id => exact ⟨(id, E), rfl, hE⟩
  | none =>
    simp only
    by_cases hb : c.BaseClassId ≥ 0
    · have hlt : c.BaseClassId < (E.Templates.length : Int) := by
        rcases hc hfind with h | h
        · omega
        · exact h
      have hsz : toSizeT c.BaseClassId < E.Templates.length := by
        have := toSizeT_le c.BaseClassId hb
        omega
      have hsz2 : toSizeT c.BaseClassId < (E.Templates ++
          [(⟨⟨toInt32 E.Templates.length, c.Constructor,
              if c.Destructor ≠ 0 then c.Destructor else E.GeneralDestructor, c.Data, c.Size⟩,
            3, none, [], []⟩ : FunctionTemplate)]).length := by
        simp only [List.length_append, List.length_singleton]
        omega
      rw [if_pos hb, if_pos hsz2]
      refine ⟨_, rfl, ?_⟩
      apply basesRegisteredBefore_push _ _ hE
      intro b hbp
      simp only [Option.some.injEq] at hbp
      omega
    · rw [if_neg hb]
      refine ⟨_, rfl, ?_⟩
      apply basesRegisteredBefore_push _ _ hE
      intro b hbp
      simp at hbp

theorem RegisterClasses_keep_bases (calls : List ClassRegistration) :
    ∀ E : JSEngine, E.BasesRegisteredBefore → E.BasesKnown calls →
      ∃ E1, E.RegisterClasses calls = some E1 ∧ E1.BasesRegisteredBefore := by
  induction calls with
  | nil =>
    intro E hE _
    exact ⟨E, rfl, hE⟩
  | cons c rest ih =>
    intro E hE hk
    obtain ⟨r, hr, hinv⟩ := RegisterClass_keeps_bases E c hE hk.1
    obtain ⟨E1, h1, h2⟩ := ih r.2 hinv (hk.2 r hr)
    refine ⟨E1, ?_, h2⟩
    simp only [JSEngine.RegisterClasses, hr]
    exact h1

/-- C9 (as amended): in every state reached from a new engine by a sequence of
RegisterClass calls in which every call that registers a new name passes either no base
(a negative id) or the id of a class registered before the call, every call returns and
every class that has a base has a base registered strictly before it (base index below
its own index, hence within the table): no class inherits from itself or from an
unregistered id, and the inheritance relation is acyclic. -/
theorem RegisterClasses_bases_registered_before (calls : List ClassRegistration)
    (h : JSEngine.New.BasesKnown calls) :
    ∃ E1, JSEngine.New.RegisterClasses calls = some E1 ∧ E1.BasesRegisteredBefore := by
  apply RegisterClasses_keep_bases calls JSEngine.New _ h
  intro i T b hT _
  simp [JSEngine.New] at hT

/-- Witness of C9 (as amended): Vec2 without base, then Vec3 with base 0. -/
theorem RegisterClasses_bases_registered_before_witness :
    JSEngine.New.RegisterClasses [⟨"Vec2", -1, 0, 0, 0, 8⟩, ⟨"Vec3", 0, 0, 0, 0, 12⟩]
      = some derivedEngine ∧
    ∃ E1, JSEngine.New.RegisterClasses
        [⟨"Vec2", -1, 0, 0, 0, 8⟩, ⟨"Vec3", 0, 0, 0, 0, 12⟩] = some E1 ∧
      E1.BasesRegisteredBefore :=
  ⟨by decide, RegisterClasses_bases_registered_before
    [⟨"Vec2", -1, 0, 0, 0, 8⟩, ⟨"Vec3", 0, 0, 0, 0, 12⟩]
    ⟨fun _ => Or.inl (by decide), fun r hr =>
      have hr2 : r = (0, payloadEngine) := by
        have h0 : JSEngine.New.RegisterClass "Vec2" (-1) 0 0 0 8 = some (0, payloadEngine) := by
          decide
        exact (Option.some.inj (hr.symm.trans h0))
      hr2 ▸ ⟨fun _ => Or.inr (by decide), fun _ _ => trivial⟩⟩⟩

/-- C9 (counterexample): in a new engine `RegisterClass("A", 0, ...)` passes base id 0
while no class is registered. The call returns id 0 and leaves class 0 inheriting from
template 0, which is itself: its base is not registered strictly before it. -/
theorem RegisterClass_self_base :
    JSEngine.New.RegisterClasses [⟨"A", 0, 0, 0, 0, 0⟩] = some selfBaseEngine ∧
    JSEngine.New.RegisterClass "A" 0 0 0 0 0 = some (0, selfBaseEngine) ∧
    (selfBaseEngine.Templates[0]?).map (fun T => T.Parent) = some (some 0) ∧
    ¬ selfBaseEngine.BasesRegisteredBefore := by
  refine ⟨by decide, by decide, by decide, ?_⟩
  intro h
  exact absurd (h 0 ⟨⟨0, 0, 0, 0, 0⟩, 3, some 0, [], []⟩ 0 rfl rfl) (by decide)

/-! ## Payload-owned binding -/

theorem readBytes_memcpy (M : Memory) (dst src : Pointer) (n : Nat) :
    readBytes (memcpy M dst src n) dst n = readBytes M src n := by
  unfold readBytes
  apply List.map_congr_left
  intro i hi
  have hi2 : i < n := List.mem_range.1 hi
  have h1 : dst ≤ dst + i ∧ dst + i < dst + n :=
    ⟨Nat.le_add_right dst i, Nat.add_lt_add_left hi2 dst⟩
  simp only [memcpy, h1, and_self, if_true, Nat.add_sub_cancel_left]

/-- C10 (as amended): for a class record with payload size s > 0, any source address
and a successful allocation (malloc returns a non-null Val), BindObject allocates a
buffer of s bytes (one malloc of s bytes), stores its address in internal field 0 of
the script object and files the object under that address in the identity map. When
the source address is non-null the s bytes of the buffer equal the s bytes at the
source; when the source address is null memory is not written: the s bytes of the
buffer are what the allocator left there. -/
theorem BindObject_payload_owned (E : JSEngine) (M : Memory) (L : FLifeCycleInfo)
    (Ptr : Pointer) (JSObject : JSObject) (Val : Pointer) (hSize : L.Size > 0)
    (hVal : Val ≠ 0) :
    ∃ E1 M1 o, E.BindObject M L Ptr JSObject Val = some (E1, M1, o) ∧
      emitted E E1 = [Effect.Malloc L.Size.toNat Val] ∧
      o.Id = JSObject.Id ∧ o.InternalField0 = Val ∧ o.InternalField1 = some L ∧
      mapFind Val E1.ObjectMap = some o ∧
      (Ptr ≠ 0 → readBytes M1 Val L.Size.toNat = readBytes M Ptr L.Size.toNat) ∧
      (Ptr = 0 → M1 = M) := by
  have hfind : mapFind Val (mapAssign Val (⟨JSObject.Id, Val, some L, OBJECT_MAGIC⟩ : puerts.JSObject)
      E.ObjectMap) = some ⟨JSObject.Id, Val, some L, OBJECT_MAGIC⟩ :=
    mapFind_mapAssign_self _ _ _
  by_cases hP : Ptr = 0
  · refine ⟨JSEngine.emit
        { E with
          ObjectMap := mapAssign Val ⟨JSObject.Id, Val, some L, OBJECT_MAGIC⟩ E.ObjectMap }
        [Effect.Malloc L.Size.toNat Val], M,
      ⟨JSObject.Id, Val, some L, OBJECT_MAGIC⟩, ?_, ?_, rfl, rfl, rfl, hfind, ?_, ?_⟩
    · simp [JSEngine.BindObject, hSize, hP]
    · exact emitted_emit _ _ _ rfl
    · intro h
      exact absurd hP h
    · intro _
      rfl
  · refine ⟨JSEngine.emit
        { E with
          ObjectMap := mapAssign Val ⟨JSObject.Id, Val, some L, OBJECT_MAGIC⟩ E.ObjectMap }
        [Effect.Malloc L.Size.toNat Val], memcpy M Val Ptr L.Size.toNat,
      ⟨JSObject.Id, Val, some L, OBJECT_MAGIC⟩, ?_, ?_, rfl, rfl, rfl, hfind, ?_, ?_⟩
    · simp [JSEngine.BindObject, hSize, hP, hVal]
    · exact emitted_emit _ _ _ rfl
    · intro _
      exact readBytes_memcpy _ _ _ _
    · intro h
      exact absurd h hP

/-- Witness of C10 (as amended): a record of 8 bytes, source 100, buffer 200. -/
theorem BindObject_payload_owned_witness :
    ∃ E1 M1 o, payloadEngine.BindObject sampleMemory ⟨0, 0, 0, 0, 8⟩ 100 ⟨0, 0, none, 0⟩ 200
        = some (E1, M1, o) ∧
      emitted payloadEngine E1 = [Effect.Malloc (8 : Int).toNat 200] ∧
      o.Id = 0 ∧ o.InternalField0 = 200 ∧ o.InternalField1 = some ⟨0, 0, 0, 0, 8⟩ ∧
      mapFind 200 E1.ObjectMap = some o ∧
      ((100 : Nat) ≠ 0 → readBytes M1 200 (8 : Int).toNat
        = readBytes sampleMemory 100 (8 : Int).toNat) ∧
      ((100 : Nat) = 0 → M1 = sampleMemory) :=
  BindObject_payload_owned payloadEngine sampleMemory ⟨0, 0, 0, 0, 8⟩ 100 ⟨0, 0, none, 0⟩ 200
    (by decide) (by decide)

/-- C10 (counterexample): a record of 8 bytes and a null source, as in a script call
`new Vec2()` on a class without constructor thunk (NewWrap binds the null address).
malloc returns 200, where sampleMemory holds 5, 6, 7, 1, 2, 3, 4, 5; BindObject copies
nothing and writes nothing, so the 8 bytes of the buffer are those bytes, not zero. -/
theorem BindObject_null_source_not_zeroed :
    (payloadEngine.BindObject sampleMemory ⟨0, 0, 0, 0, 8⟩ 0 ⟨0, 0, none, 0⟩ 200).map
        (fun r => (r.2.2.InternalField0, readBytes r.2.1 r.2.2.InternalField0 8))
      = some (200, [5, 6, 7, 1, 2, 3, 4, 5]) ∧
    (NewWrap payloadEngine sampleMemory true ⟨0, 0, 0, 0, 8⟩ none ⟨0, 0, none, 0⟩ 0 200).map
        (fun r => r.2.2.map (fun o => (o.InternalField0, readBytes r.2.1 o.InternalField0 8)))
      = some (some (200, [5, 6, 7, 1, 2, 3, 4, 5])) ∧
    [5, 6, 7, 1, 2, 3, 4, 5] ≠ List.replicate 8 0 := by
  refine ⟨by decide, by decide, by decide⟩

/-! ## Function handle table: acquisition -/

theorem firstVacant_some (l : List (Option JSFunction)) :
    ∀ (s i : Nat), firstVacant l s = some i →
      s ≤ i ∧ l[i - s]? = some none ∧ ∀ j : Nat, j < i - s → l[j]? ≠ some none := by
  induction l with
  | nil =>
    intro s i h
    simp [firstVacant] at h
  | cons x rest ih =>
    intro s i h
    cases x with
    | none =>
      simp only [firstVacant, Option.some.injEq] at h
      subst h
      refine ⟨le_refl _, by simp, ?_⟩
      intro j hj
      omega
    | some f =>
      simp only [firstVacant] at h
      obtain ⟨h1, h2, h3⟩ := ih (s + 1) i h
      have hk : i - s = (i - (s + 1)) + 1 := by omega
      refine ⟨by omega, ?_, ?_⟩
      · rw [hk, List.getElem?_cons_succ]
        exact h2
      · intro j hj
        cases j with
        | zero => simp
        | succ k =>
          rw [List.getElem?_cons_succ]
          exact h3 k (by omega)

theorem firstVacant_none (l : List (Option JSFunction)) :
    ∀ (s : Nat), firstVacant l s = none → ∀ j : Nat, l[j]? ≠ some none := by
  induction l with
  | nil =>
    intro s _ j
    simp
  | cons x rest ih =>
    intro s h j
    cases x with
    | none => simp [firstVacant] at h
    | some f =>
      simp only [firstVacant] at h
      cases j with
      | zero => simp
      | succ k =>
        rw [List.getElem?_cons_succ]
        exact ih (s + 1) h k

theorem toSizeT_natCast (i : Nat) (h : i < 2147483648) : toSizeT (i : Int) = i := by
  unfold toSizeT
  omega

theorem toInt32_of_lt (n : Nat) (h : n < 2147483648) : toInt32 n = (n : Int) := by
  unfold toInt32
  omega

/-- CreateJSFunction on a function that carries a cached index of the table returns
the content of that slot and changes nothing. -/
theorem CreateJSFunction_of_cached (E : JSEngine) (InFunction : Nat) (index : Int)
    (r : Option JSFunction) (hc : mapFind InFunction E.FunctionIndexKey = some index)
    (hr : E.JSFunctions[toSizeT index]? = some r) :
    E.CreateJSFunction InFunction = some (r, E) := by
  obtain ⟨hlt, hget⟩ := List.getElem?_eq_some.1 hr
  simp [JSEngine.CreateJSFunction, hc, hlt, hget]

/-- CreateJSFunction on a function that carries no cached index, in a table of fewer
than 2^31 slots. -/
theorem CreateJSFunction_of_new (E : JSEngine) (InFunction : Nat)
    (hNew : mapFind InFunction E.FunctionIndexKey = none)
    (hLen : E.JSFunctions.length < 2147483648) :
    ∃ (h : JSFunction) (i : Nat) (E1 : JSEngine),
      E.CreateJSFunction InFunction = some (some h, E1) ∧
      h.GFunction = InFunction ∧ h.Handle = E.NextHandle ∧ h.Index = (i : Int) ∧
      mapFind InFunction E1.FunctionIndexKey = some h.Index ∧
      (∀ g, g ≠ InFunction → mapFind g E1.FunctionIndexKey = mapFind g E.FunctionIndexKey) ∧
      E1.JSFunctions[i]? = some (some h) ∧
      (∀ j : Nat, j ≠ i → E1.JSFunctions[j]? = E.JSFunctions[j]?) ∧
      ((∃ j : Nat, E.JSFunctions[j]? = some none) →
        E.JSFunctions[i]? = some none ∧ (∀ j : Nat, j < i → E.JSFunctions[j]? ≠ some none) ∧
        E1.JSFunctions.length = E.JSFunctions.length) ∧
      ((¬ ∃ j : Nat, E.JSFunctions[j]? = some none) →
        i = E.JSFunctions.length ∧ E1.JSFunctions.length = E.JSFunctions.length + 1) := by
  cases hv : firstVacant E.JSFunctions 0 with
  | some i =>
    obtain ⟨-, h2, h3⟩ := firstVacant_some E.JSFunctions 0 i hv
    rw [Nat.sub_zero] at h2 h3
    have hi : i < E.JSFunctions.length := (List.getElem?_eq_some.1 h2).1
    refine ⟨⟨E.NextHandle, InFunction, (i : Int)⟩, i,
      { E with
        JSFunctions := E.JSFunctions.set i (some ⟨E.NextHandle, InFunction, (i : Int)⟩)
        FunctionIndexKey := mapAssign InFunction (i : Int) E.FunctionIndexKey
        NextHandle := E.NextHandle + 1 },
      ?_, rfl, rfl, rfl, ?_, ?_, ?_, ?_, ?_, ?_⟩
    · simp only [JSEngine.CreateJSFunction, hNew, hv]
    · exact mapFind_mapAssign_self _ _ _
    · intro g hg
      exact mapFind_mapAssign_ne _ _ _ _ hg
    · exact List.getElem?_set_self hi
    · intro j hj
      exact List.getElem?_set_ne (Ne.symm hj)
    · intro _
      exact ⟨h2, h3, List.length_set _ _ _⟩
    · intro hno
      exact absurd ⟨i, h2⟩ hno
  | none =>
    have hnone := firstVacant_none E.JSFunctions 0 hv
    have h32 := toInt32_of_lt E.JSFunctions.length hLen
    refine ⟨⟨E.NextHandle, InFunction, toInt32 E.JSFunctions.length⟩, E.JSFunctions.length,
      { E with
        JSFunctions := E.JSFunctions ++ [some ⟨E.NextHandle, InFunction, toInt32 E.JSFunctions.length⟩]
        FunctionIndexKey := mapAssign InFunction (toInt32 E.JSFunctions.length) E.FunctionIndexKey
        NextHandle := E.NextHandle + 1 },
      ?_, rfl, rfl, h32, ?_, ?_, ?_, ?_, ?_, ?_⟩
    · simp only [JSEngine.CreateJSFunction, hNew, hv]
    · exact mapFind_mapAssign_self _ _ _
    · intro g hg
      exact mapFind_mapAssign_ne _ _ _ _ hg
    · exact List.getElem?_concat_length _ _
    · intro j hj
      by_cases hlt : j < E.JSFunctions.length
      · exact List.getElem?_append_left hlt
      · have hgt : E.JSFunctions.length + 1 ≤ j := by omega
        rw [List.getElem?_eq_none (by simpa using hgt), List.getElem?_eq_none (by omega)]
    · intro hex
      obtain ⟨j, hj⟩ := hex
      exact absurd hj (hnone j)
    · intro _
      exact ⟨rfl, by simp⟩

/-- A new engine caches no index. -/
theorem CachedIndicesInRange_New : JSEngine.New.CachedIndicesInRange := by
  intro f index h
  simp [JSEngine.New, mapFind] at h

/-- CreateJSFunction keeps every cached index inside the table (for a table of fewer
than 2^31 slots). -/
theorem CachedIndicesInRange_CreateJSFunction (E E1 : JSEngine) (InFunction : Nat)
    (r : Option JSFunction) (hE : E.CachedIndicesInRange)
    (hLen : E.JSFunctions.length < 2147483648)
    (h : E.CreateJSFunction InFunction = some (r, E1)) : E1.CachedIndicesInRange := by
  cases hc : mapFind InFunction E.FunctionIndexKey with
  | some index =>
    have hlt : toSizeT index < E.JSFunctions.length := hE _ _ hc
    have hr : E.JSFunctions[toSizeT index]? = some E.JSFunctions[toSizeT index] :=
      List.getElem?_eq_getElem hlt
    rw [CreateJSFunction_of_cached E InFunction index _ hc hr] at h
    simp only [Option.some.injEq, Prod.mk.injEq] at h
    rw [← h.2]
    exact hE
  | none =>
    obtain ⟨F, i, E2, h1, -, -, hIdx, hf, hg, hslot, hother, hreuse, hgrow⟩ :=
      CreateJSFunction_of_new E InFunction hc hLen
    rw [h1] at h
    simp only [Option.some.injEq, Prod.mk.injEq] at h
    rw [← h.2]
    have hi : i < E2.JSFunctions.length := (List.getElem?_eq_some.1 hslot).1
    have hlen : E.JSFunctions.length ≤ E2.JSFunctions.length := by
      by_cases hex : ∃ j : Nat, E.JSFunctions[j]? = some none
      · exact le_of_eq (hreuse hex).2.2.symm
      · rw [(hgrow hex).2]
        exact Nat.le_succ _
    have hi2 : i < 2147483648 := by
      by_cases hex : ∃ j : Nat, E.JSFunctions[j]? = some none
      · have := (hreuse hex).2.2
        omega
      · have := (hgrow hex).1
        omega
    intro g index hgi
    by_cases hgf : g = InFunction
    · rw [hgf, hf, hIdx] at hgi
      simp only [Option.some.injEq] at hgi
      rw [← hgi, toSizeT_natCast i hi2]
      exact hi
    · rw [hg g hgf] at hgi
      exact lt_of_lt_of_le (hE g index hgi) hlen

/-- ReleaseJSFunction keeps every cached index inside the table. -/
theorem CachedIndicesInRange_ReleaseJSFunction (E E1 : JSEngine) (InFunction : JSFunction)
    (hE : E.CachedIndicesInRange) (h : E.ReleaseJSFunction InFunction = some E1) :
    E1.CachedIndicesInRange := by
  unfold JSEngine.ReleaseJSFunction at h
  split_ifs at h
  simp only [Option.some.injEq] at h
  rw [← h]
  intro g index hgi
  simpa [JSEngine.emit] using hE g index hgi

/-- C11: acquire is idempotent. In a table of fewer than 2^31 slots, for a script
function whose cached index, if it carries one, is an index of the table (as is every
index the engine caches), two successive calls of CreateJSFunction return the same
pointer, hence the same handle with the same index, and the second call leaves the
engine state, the handle table included, unchanged. The pointer is a handle that
wraps the function when the function carried no cached index, and it is the handle in
the slot of the cached index when that slot holds one. -/
theorem CreateJSFunction_idempotent (E : JSEngine) (InFunction : Nat)
    (hLen : E.JSFunctions.length < 2147483648)
    (hIdx : ∀ index, mapFind InFunction E.FunctionIndexKey = some index →
      toSizeT index < E.JSFunctions.length) :
    ∃ r E1, E.CreateJSFunction InFunction = some (r, E1) ∧
      E1.CreateJSFunction InFunction = some (r, E1) ∧
      (mapFind InFunction E.FunctionIndexKey = none →
        ∃ h, r = some h ∧ h.GFunction = InFunction ∧
          E1.JSFunctions[toSizeT h.Index]? = some (some h)) ∧
      (∀ index h, mapFind InFunction E.FunctionIndexKey = some index →
        E.JSFunctions[toSizeT index]? = some (some h) → r = some h ∧ E1 = E) := by
  cases hc : mapFind InFunction E.FunctionIndexKey with
  | some index =>
    have hlt : toSizeT index < E.JSFunctions.length := hIdx _ hc
    have hr : E.JSFunctions[toSizeT index]? = some E.JSFunctions[toSizeT index] :=
      List.getElem?_eq_getElem hlt
    have h1 := CreateJSFunction_of_cached E InFunction index _ hc hr
    refine ⟨_, E, h1, h1, ?_, ?_⟩
    · intro hno
      cases hno
    · intro index2 h hi hslot
      simp only [Option.some.injEq] at hi
      subst hi
      rw [hr] at hslot
      exact ⟨Option.some.inj hslot, rfl⟩
  | none =>
    obtain ⟨F, i, E2, h1, hF, -, hI, hf, -, hslot, -, hreuse, hgrow⟩ :=
      CreateJSFunction_of_new E InFunction hc hLen
    have hi2 : i < 2147483648 := by
      have hi : i < E2.JSFunctions.length := (List.getElem?_eq_some.1 hslot).1
      by_cases hex : ∃ j : Nat, E.JSFunctions[j]? = some none
      · have := (hreuse hex).2.2
        omega
      · have := (hgrow hex).1
        omega
    have hsz : toSizeT F.Index = i := by
      rw [hI]
      exact toSizeT_natCast i hi2
    have hslot2 : E2.JSFunctions[toSizeT F.Index]? = some (some F) := by
      rw [hsz]
      exact hslot
    refine ⟨some F, E2, h1, CreateJSFunction_of_cached E2 InFunction F.Index _ hf hslot2, ?_, ?_⟩
    · intro _
      exact ⟨F, rfl, hF, hslot2⟩
    · intro index h hi
      cases hi

/-- Witness of C11: in functionEngine script function 7 carries index 0 and slot 0
holds firstHandle; both calls return firstHandle and leave the state as it is. -/
theorem CreateJSFunction_idempotent_witness :
    functionEngine.CreateJSFunction 7 = some (some firstHandle, functionEngine) ∧
    ∃ r E1, functionEngine.CreateJSFunction 7 = some (r, E1) ∧
      E1.CreateJSFunction 7 = some (r, E1) ∧
      (mapFind 7 functionEngine.FunctionIndexKey = none →
        ∃ h, r = some h ∧ h.GFunction = 7 ∧
          E1.JSFunctions[toSizeT h.Index]? = some (some h)) ∧
      (∀ index h, mapFind 7 functionEngine.FunctionIndexKey = some index →
        functionEngine.JSFunctions[toSizeT index]? = some (some h) →
          r = some h ∧ E1 = functionEngine) :=
  ⟨by decide, CreateJSFunction_idempotent functionEngine 7 (by decide) (by
    intro index h
    have h0 : index = 0 := by
      simpa [functionEngine, mapFind] using h.symm
    subst h0
    decide)⟩

/-- C13: slot reuse. In a table of fewer than 2^31 slots, for a script function f that
carries no cached index, CreateJSFunction returns a new handle h wrapping f, with an
index i such that: when the table has a vacated (null) slot, i is the lowest index of
a null slot and the table keeps its length; when it has none, i is the previous length
and the table has grown by exactly one slot. In both cases slot i now holds h, every
other slot is as before, and the cached index of f is the index of h. -/
theorem CreateJSFunction_slot_reuse (E : JSEngine) (InFunction : Nat)
    (hNew : mapFind InFunction E.FunctionIndexKey = none)
    (hLen : E.JSFunctions.length < 2147483648) :
    ∃ (h : JSFunction) (i : Nat) (E1 : JSEngine),
      E.CreateJSFunction InFunction = some (some h, E1) ∧
      h.GFunction = InFunction ∧ h.Handle = E.NextHandle ∧ h.Index = (i : Int) ∧
      mapFind InFunction E1.FunctionIndexKey = some h.Index ∧
      E1.JSFunctions[i]? = some (some h) ∧
      (∀ j : Nat, j ≠ i → E1.JSFunctions[j]? = E.JSFunctions[j]?) ∧
      ((∃ j : Nat, E.JSFunctions[j]? = some none) →
        E.JSFunctions[i]? = some none ∧ (∀ j : Nat, j < i → E.JSFunctions[j]? ≠ some none) ∧
        E1.JSFunctions.length = E.JSFunctions.length) ∧
      ((¬ ∃ j : Nat, E.JSFunctions[j]? = some none) →
        i = E.JSFunctions.length ∧ E1.JSFunctions.length = E.JSFunctions.length + 1) := by
  obtain ⟨h, i, E1, h1, h2, h3, h4, h5, -, h7, h8, h9, h10⟩ :=
    CreateJSFunction_of_new E InFunction hNew hLen
  exact ⟨h, i, E1, h1, h2, h3, h4, h5, h7, h8, h9, h10⟩

/-- Witness of C13: in releasedEngine slot 0 is vacated and script function 8 carries
no index; CreateJSFunction gives it the handle secondHandle in slot 0. -/
theorem CreateJSFunction_slot_reuse_witness :
    releasedEngine.CreateJSFunction 8 = some (some secondHandle, reusedEngine) ∧
    ∃ (h : JSFunction) (i : Nat) (E1 : JSEngine),
      releasedEngine.CreateJSFunction 8 = some (some h, E1) ∧
      h.GFunction = 8 ∧ h.Handle = releasedEngine.NextHandle ∧ h.Index = (i : Int) ∧
      mapFind 8 E1.FunctionIndexKey = some h.Index ∧
      E1.JSFunctions[i]? = some (some h) ∧
      (∀ j : Nat, j ≠ i → E1.JSFunctions[j]? = releasedEngine.JSFunctions[j]?) ∧
      ((∃ j : Nat, releasedEngine.JSFunctions[j]? = some none) →
        releasedEngine.JSFunctions[i]? = some none ∧
        (∀ j : Nat, j < i → releasedEngine.JSFunctions[j]? ≠ some none) ∧
        E1.JSFunctions.length = releasedEngine.JSFunctions.length) ∧
      ((¬ ∃ j : Nat, releasedEngine.JSFunctions[j]? = some none) →
        i = releasedEngine.JSFunctions.length ∧
        E1.JSFunctions.length = releasedEngine.JSFunctions.length + 1) :=
  ⟨by decide, CreateJSFunction_slot_reuse releasedEngine 8 (by decide) (by decide)⟩

/-! ## Class registry: dense ids -/

theorem registeredNames_cons (seen : List String) (c : ClassRegistration)
    (rest : List ClassRegistration) :
    registeredNames seen (c :: rest)
      = registeredNames (if c.FullName ∈ seen then seen else seen ++ [c.FullName]) rest := by
  by_cases h : c.FullName ∈ seen
  · simp only [registeredNames, if_pos h]
  · simp only [registeredNames, if_neg h]

theorem registeredNames_extends (calls : List ClassRegistration) :
    ∀ seen : List String, ∃ t, registeredNames seen calls = seen ++ t := by
  induction calls with
  | nil =>
    intro seen
    exact ⟨[], by simp [registeredNames]⟩
  | cons c rest ih =>
    intro seen
    rw [registeredNames_cons]
    split_ifs
    · exact ih seen
    · obtain ⟨t, ht⟩ := ih (seen ++ [c.FullName])
      exact ⟨[c.FullName] ++ t, by rw [ht, List.append_assoc]⟩

/-- RegisterClass on a name the registry does not hold, when it returns: the id is
the length of the table, one template and one record are added, and the name is
filed under the id. -/
theorem RegisterClass_of_new (E E1 : JSEngine) (FullName : String) (id : Int)
    (BaseClassId : Int) (Constructor Destructor : Pointer) (Data Size : Int)
    (hfind : mapFind FullName E.NameToTemplateID = none)
    (h : E.RegisterClass FullName BaseClassId Constructor Destructor Data Size = some (id, E1)) :
    id = toInt32 E.Templates.length ∧ E1.Templates.length = E.Templates.length + 1 ∧
    E1.LifeCycleInfos.length = E.LifeCycleInfos.length + 1 ∧
    E1.NameToTemplateID = mapAssign FullName id E.NameToTemplateID := by
  unfold JSEngine.RegisterClass at h
  simp only [hfind] at h
  split_ifs at h <;>
    (simp only [Option.some.injEq, Prod.mk.injEq] at h
     obtain ⟨rfl, rfl⟩ := h
     simp)

theorem NamesDense_step (E E1 : JSEngine) (names : List String) (c : ClassRegistration)
    (id : Int) (hInv : E.NamesDense names)
    (hLen : c.FullName ∉ names → names.length < 2147483648)
    (h : E.RegisterClass c.FullName c.BaseClassId c.Constructor c.Destructor c.Data c.Size
      = some (id, E1)) :
    E1.NamesDense (if c.FullName ∈ names then names else names ++ [c.FullName]) ∧
    ∃ i : Nat, (if c.FullName ∈ names then names else names ++ [c.FullName])[i]?
      = some c.FullName ∧ id = (i : Int) := by
  obtain ⟨hT, hL, hnd, hiff⟩ := hInv
  cases hfind : mapFind c.FullName E.NameToTemplateID with
  | some id0 =>
    rw [RegisterClass_of_registered E c.FullName id0 hfind] at h
    simp only [Option.some.injEq, Prod.mk.injEq] at h
    obtain ⟨rfl, rfl⟩ := h
    obtain ⟨i, hi, hid⟩ := (hiff c.FullName id0).1 hfind
    have hmem : c.FullName ∈ names := List.getElem?_mem hi
    rw [if_pos hmem]
    exact ⟨⟨hT, hL, hnd, hiff⟩, i, hi, hid⟩
  | none =>
    have hnot : c.FullName ∉ names := by
      intro hmem
      obtain ⟨i, hi⟩ := List.mem_iff_getElem?.1 hmem
      have := (hiff c.FullName (i : Int)).2 ⟨i, hi, rfl⟩
      rw [hfind] at this
      cases this
    obtain ⟨hid, hT1, hL1, hN1⟩ := RegisterClass_of_new E E1 c.FullName id c.BaseClassId
      c.Constructor c.Destructor c.Data c.Size hfind h
    have hlen := hLen hnot
    have hid2 : id = (names.length : Int) := by
      rw [hid, hT]
      exact toInt32_of_lt _ hlen
    rw [if_neg hnot]
    refine ⟨⟨?_, ?_, ?_, ?_⟩, names.length, List.getElem?_concat_length _ _, hid2⟩
    · rw [hT1, hT, List.length_append, List.length_singleton]
    · rw [hL1, hL, List.length_append, List.length_singleton]
    · rw [List.nodup_append]
      refine ⟨hnd, List.nodup_singleton _, ?_⟩
      intro a ha hb
      rw [List.mem_singleton] at hb
      exact hnot (hb ▸ ha)
    · intro name id2
      rw [hN1]
      by_cases hn : name = c.FullName
      · subst hn
        rw [mapFind_mapAssign_self]
        constructor
        · intro hh
          simp only [Option.some.injEq] at hh
          exact ⟨names.length, List.getElem?_concat_length _ _, by rw [← hh, hid2]⟩
        · rintro ⟨i, hi, rfl⟩
          by_cases hlt : i < names.length
          · rw [List.getElem?_append_left hlt] at hi
            exact absurd (List.getElem?_mem hi) hnot
          · have hge : names.length ≤ i := not_lt.1 hlt
            have hilt : i < (names ++ [c.FullName]).length := (List.getElem?_eq_some.1 hi).1
            rw [List.length_append, List.length_singleton] at hilt
            have : i = names.length := by omega
            rw [this, hid2]
      · rw [mapFind_mapAssign_ne _ _ _ _ hn, hiff]
        constructor
        · rintro ⟨i, hi, rfl⟩
          have hlt : i < names.length := (List.getElem?_eq_some.1 hi).1
          exact ⟨i, by rw [List.getElem?_append_left hlt]; exact hi, rfl⟩
        · rintro ⟨i, hi, rfl⟩
          by_cases hlt : i < names.length
          · rw [List.getElem?_append_left hlt] at hi
            exact ⟨i, hi, rfl⟩
          · have hge : names.length ≤ i := not_lt.1 hlt
            rw [List.getElem?_append_right hge] at hi
            have hmem : name ∈ [c.FullName] := List.getElem?_mem hi
            rw [List.mem_singleton] at hmem
            exact absurd hmem hn

theorem RegisterClassesIds_names_dense (calls : List ClassRegistration) :
    ∀ (E : JSEngine) (seen : List String) (ids : List Int) (E1 : JSEngine),
      E.NamesDense seen → (registeredNames seen calls).length ≤ 2147483648 →
      E.RegisterClassesIds calls = some (ids, E1) →
      E1.NamesDense (registeredNames seen calls) ∧
      List.Forall₂ (fun c id => ∃ i : Nat,
        (registeredNames seen calls)[i]? = some c.FullName ∧ id = (i : Int)) calls ids := by
  induction calls with
  | nil =>
    intro E seen ids E1 hInv _ h
    simp only [JSEngine.RegisterClassesIds, Option.some.injEq, Prod.mk.injEq] at h
    obtain ⟨rfl, rfl⟩ := h
    exact ⟨hInv, List.Forall₂.nil⟩
  | cons c rest ih =>
    intro E seen ids E1 hInv hLen h
    rw [registeredNames_cons] at hLen ⊢
    unfold JSEngine.RegisterClassesIds at h
    cases hr : E.RegisterClass c.FullName c.BaseClassId c.Constructor c.Destructor c.Data
        c.Size with
    | none => simp [hr] at h
    | some r =>
      cases hs : r.2.RegisterClassesIds rest with
      | none => simp [hr, hs] at h
      | some s =>
        simp only [hr, hs, Option.some.injEq, Prod.mk.injEq] at h
        obtain ⟨rfl, rfl⟩ := h
        obtain ⟨t, ht⟩ := registeredNames_extends rest
          (if c.FullName ∈ seen then seen else seen ++ [c.FullName])
        have hbound : c.FullName ∉ seen → seen.length < 2147483648 := by
          intro hnot
          rw [ht, if_neg hnot, List.length_append, List.length_append,
            List.length_singleton] at hLen
          omega
        obtain ⟨hInv1, i, hi, hid⟩ := NamesDense_step E r.2 seen c r.1 hInv hbound hr
        obtain ⟨hInv2, hall⟩ := ih r.2 _ s.1 s.2 hInv1 hLen hs
        refine ⟨hInv2, List.Forall₂.cons ⟨i, ?_, hid⟩ hall⟩
        rw [ht, List.getElem?_append_left (List.getElem?_eq_some.1 hi).1]
        exact hi

/-- The states of the two runs of a sequence of registrations agree. -/
theorem RegisterClasses_eq_map_RegisterClassesIds (calls : List ClassRegistration) :
    ∀ E : JSEngine, E.RegisterClasses calls = (E.RegisterClassesIds calls).map (fun s => s.2) := by
  induction calls with
  | nil =>
    intro E
    rfl
  | cons c rest ih =>
    intro E
    unfold JSEngine.RegisterClasses JSEngine.RegisterClassesIds
    cases hr : E.RegisterClass c.FullName c.BaseClassId c.Constructor c.Destructor c.Data
        c.Size with
    | none => rfl
    | some r =>
      simp only [ih r.2]
      cases r.2.RegisterClassesIds rest <;> rfl

/-- RegisterClass returns when the subscript of the base is defined. -/
theorem RegisterClass_returns (E : JSEngine) (c : ClassRegistration)
    (hc : mapFind c.FullName E.NameToTemplateID = none →
      c.BaseClassId < 0 ∨ toSizeT c.BaseClassId ≤ E.Templates.length) :
    ∃ r, E.RegisterClass c.FullName c.BaseClassId c.Constructor c.Destructor c.Data c.Size
      = some r := by
  cases hfind : mapFind c.FullName E.NameToTemplateID with
  | some id => exact ⟨(id, E), RegisterClass_of_registered E c.FullName id hfind _ _ _ _ _⟩
  | none =>
    unfold JSEngine.RegisterClass
    simp only [hfind]
    by_cases hb : c.BaseClassId ≥ 0
    · have hle : toSizeT c.BaseClassId ≤ E.Templates.length := by
        rcases hc hfind with h | h
        · omega
        · exact h
      rw [if_pos hb, if_pos (by simp only [List.length_append, List.length_singleton]; omega)]
      exact ⟨_, rfl⟩
    · rw [if_neg hb]
      exact ⟨_, rfl⟩

theorem RegisterClassesIds_returns (calls : List ClassRegistration) :
    ∀ E : JSEngine, E.BasesInTable calls → ∃ s, E.RegisterClassesIds calls = some s := by
  induction calls with
  | nil =>
    intro E _
    exact ⟨([], E), rfl⟩
  | cons c rest ih =>
    intro E hB
    obtain ⟨r, hr⟩ := RegisterClass_returns E c hB.1
    obtain ⟨s, hs⟩ := ih r.2 (hB.2 r hr)
    exact ⟨(r.1 :: s.1, s.2), by simp only [JSEngine.RegisterClassesIds, hr, hs]⟩

/-- C12: class ids are dense and unique. Starting from a new engine, for a sequence of
RegisterClass calls whose base ids are within the table (so that every call returns)
and in which k distinct names are registered (k at most 2^31, the range of the int
id): every call returns; afterwards the class table has exactly k templates and k class
records; the name-to-id map holds exactly the registered names, the i-th distinct name
registered (counting from 0) under id i, so it is injective with image exactly
0, ..., k-1; and every call returned the position of its name among the distinct names,
so the call that registered the i-th distinct name returned i. -/
theorem RegisterClasses_dense_ids (calls : List ClassRegistration)
    (hBases : JSEngine.New.BasesInTable calls)
    (hLen : (registeredNames [] calls).length ≤ 2147483648) :
    ∃ (ids : List Int) (E1 : JSEngine),
      JSEngine.New.RegisterClassesIds calls = some (ids, E1) ∧
      JSEngine.New.RegisterClasses calls = some E1 ∧
      E1.Templates.length = (registeredNames [] calls).length ∧
      E1.LifeCycleInfos.length = (registeredNames [] calls).length ∧
      (registeredNames [] calls).Nodup ∧
      (∀ (name : String) (id : Int), mapFind name E1.NameToTemplateID = some id ↔
        ∃ i : Nat, (registeredNames [] calls)[i]? = some name ∧ id = (i : Int)) ∧
      (∀ (n1 n2 : String) (id : Int), mapFind n1 E1.NameToTemplateID = some id →
        mapFind n2 E1.NameToTemplateID = some id → n1 = n2) ∧
      (∀ (name : String) (id : Int), mapFind name E1.NameToTemplateID = some id →
        0 ≤ id ∧ id < ((registeredNames [] calls).length : Int)) ∧
      (∀ i : Nat, i < (registeredNames [] calls).length →
        ∃ name, mapFind name E1.NameToTemplateID = some (i : Int)) ∧
      List.Forall₂ (fun c id => ∃ i : Nat,
        (registeredNames [] calls)[i]? = some c.FullName ∧ id = (i : Int)) calls ids := by
  obtain ⟨⟨ids, E1⟩, hRun⟩ := RegisterClassesIds_returns calls JSEngine.New hBases
  have hNew : JSEngine.New.NamesDense [] := by
    refine ⟨rfl, rfl, List.nodup_nil, ?_⟩
    intro name id
    simp [JSEngine.New, mapFind]
  obtain ⟨⟨hT, hL, hnd, hiff⟩, hall⟩ :=
    RegisterClassesIds_names_dense calls JSEngine.New [] ids E1 hNew hLen hRun
  refine ⟨ids, E1, hRun, ?_, hT, hL, hnd, hiff, ?_, ?_, ?_, hall⟩
  · rw [RegisterClasses_eq_map_RegisterClassesIds, hRun]
    rfl
  · intro n1 n2 id h1 h2
    obtain ⟨i1, hi1, rfl⟩ := (hiff n1 id).1 h1
    obtain ⟨i2, hi2, hid⟩ := (hiff n2 _).1 h2
    have : i1 = i2 := by exact_mod_cast hid
    subst this
    rw [hi1] at hi2
    exact Option.some.inj hi2
  · intro name id h
    obtain ⟨i, hi, rfl⟩ := (hiff name id).1 h
    have hlt : i < (registeredNames [] calls).length := (List.getElem?_eq_some.1 hi).1
    exact ⟨Int.natCast_nonneg i, by exact_mod_cast hlt⟩
  · intro i hi
    exact ⟨(registeredNames [] calls)[i], (hiff _ _).2 ⟨i, List.getElem?_eq_getElem hi, rfl⟩⟩

/-- Witness of C12: Vec2, then Vec3 with base 0, then Vec2 again: two distinct names,
ids 0, 1, 0, and the state derivedEngine with two classes. -/
theorem RegisterClasses_dense_ids_witness :
    JSEngine.New.RegisterClassesIds
        [⟨"Vec2", -1, 0, 0, 0, 8⟩, ⟨"Vec3", 0, 0, 0, 0, 12⟩, ⟨"Vec2", 0, 11, 22, 5, 16⟩]
      = some ([0, 1, 0], derivedEngine) ∧
    registeredNames []
        [⟨"Vec2", -1, 0, 0, 0, 8⟩, ⟨"Vec3", 0, 0, 0, 0, 12⟩, ⟨"Vec2", 0, 11, 22, 5, 16⟩]
      = ["Vec2", "Vec3"] ∧
    ∃ (ids : List Int) (E1 : JSEngine),
      JSEngine.New.RegisterClassesIds
          [⟨"Vec2", -1, 0, 0, 0, 8⟩, ⟨"Vec3", 0, 0, 0, 0, 12⟩, ⟨"Vec2", 0, 11, 22, 5, 16⟩]
        = some (ids, E1) ∧
      E1.Templates.length = 2 :=
  have h := RegisterClasses_dense_ids
    [⟨"Vec2", -1, 0, 0, 0, 8⟩, ⟨"Vec3", 0, 0, 0, 0, 12⟩, ⟨"Vec2", 0, 11, 22, 5, 16⟩]
    ⟨fun _ => Or.inl (by decide), fun r1 hr1 =>
      have e1 : r1 = (0, payloadEngine) :=
        Option.some.inj (hr1.symm.trans (by decide))
      e1 ▸ ⟨fun _ => Or.inr (by decide), fun r2 hr2 =>
        have e2 : r2 = (1, derivedEngine) :=
          Option.some.inj (hr2.symm.trans (by decide))
        e2 ▸ ⟨fun h => absurd h (by decide), fun _ _ => trivial⟩⟩⟩
    (by decide)
  ⟨by decide, by decide, h.elim fun ids h2 => h2.elim fun E1 h3 => ⟨ids, E1, h3.1, h3.2.2.1⟩⟩

end puerts
